import Mathlib

/-!
Verification of the artwork-aggregation logic of the AIOStreams repository.

Embedded source files:
* `src/packages/core/src/utils/getLogo.ts`  — `LogoService` (logo lookup, ID parsing,
  `selectBestLogo` ranking, cache-aside, Fanart.tv/TMDB clients);
* `src/packages/core/src/utils/fanart.ts`   — first `FanartTV` variant (modelled here
  as namespace `FanartTV1`);
* `src/unnamed/part_000`                    — `ArtworkProvider` poster orchestrator;
* `src/unnamed/part_001`                    — second `FanartTV` variant (namespace
  `FanartTV2`).

JavaScript dynamic values that the code inspects (language tags, like/vote counts)
are modelled by `JsVal`; network calls are modelled by threading their outcomes
(an `Except Unit …` value: `.error` models a thrown exception) as explicit inputs,
and each function that can reach the network also returns the number of network
requests it performed.  `Array.prototype.sort` is modelled as a stable insertion
sort (ECMAScript mandates a stable sort); comparator results are routed through
`SortCompare`, which maps `NaN` to `+0` — in the comparator models below that
normalisation is folded into the `match` arms that return `0`.
-/


/-- A JavaScript value as it appears in the provider JSON fields the code reads:
`undefined`, `null`, a string, or a (finite) number.  `NaN`/`Infinity` inputs and
non-primitive values are outside the model; the code under verification never
produces them in these positions. -/
inductive JsVal : Type where
  | undef : JsVal
  | null : JsVal
  | str : String → JsVal
  | num : ℚ → JsVal
deriving DecidableEq, Repr

/-- JavaScript truthiness of a `JsVal` (`undefined`, `null`, `""` and `0` are falsy). -/
def jsFalsy : JsVal → Bool
  | .undef => true
  | .null => true
  | .str s => s = ""
  | .num q => q = 0

/-- The JavaScript `a || b` operator on `JsVal`s. -/
def jsOr (a b : JsVal) : JsVal := if jsFalsy a then b else a

/-- Consume a maximal run of decimal digits (the JS regex `\d` class is `[0-9]`,
matching `Char.isDigit`), returning the digits and the rest. -/
def takeDigits : List Char → List Char × List Char
  | [] => ([], [])
  | c :: cs =>
      if c.isDigit then
        let p := takeDigits cs
        (c :: p.1, p.2)
      else ([], c :: cs)

/-- Numeric value of a digit string (most significant digit first). -/
def digitsToNat (ds : List Char) : Nat :=
  ds.foldl (fun n c => 10 * n + (c.toNat - 48)) 0

/-- Whitespace characters skipped by JS `parseFloat` / `Number` (the common ones;
exotic Unicode space characters are outside the model). -/
def isJsSpace (c : Char) : Bool :=
  c = ' ' ∨ c = '\t' ∨ c = '\n' ∨ c = '\r'

/-- Read an optional sign, returning it as a rational factor. -/
def readSignQ : List Char → ℚ × List Char
  | '-' :: cs => (-1, cs)
  | '+' :: cs => (1, cs)
  | cs => (1, cs)

/-- Read an optional exponent part (`e`/`E`, optional sign, digits); `parseFloat`
ignores a trailing `e` with no digits, yielding exponent `0`. -/
def readExp : List Char → Int
  | [] => 0
  | c :: cs =>
      if c = 'e' ∨ c = 'E' then
        match cs with
        | '-' :: r => (match takeDigits r with
            | ([], _) => 0
            | (ds, _) => -(digitsToNat ds : Int))
        | '+' :: r => (match takeDigits r with
            | ([], _) => 0
            | (ds, _) => (digitsToNat ds : Int))
        | r => (match takeDigits r with
            | ([], _) => 0
            | (ds, _) => (digitsToNat ds : Int))
      else 0

/-- JS `parseFloat` on a character sequence: skip leading whitespace, optional
sign, then the longest decimal-literal prefix; `none` models `NaN`.  The
`Infinity` literal is outside the model (never produced by the providers). -/
def parseFloatChars (cs0 : List Char) : Option ℚ :=
  let cs1 := cs0.dropWhile isJsSpace
  let p1 := readSignQ cs1
  let p2 := takeDigits p1.2
  let p3 : List Char × List Char :=
    match p2.2 with
    | '.' :: r => takeDigits r
    | _ => ([], p2.2)
  if p2.1 = [] ∧ p3.1 = [] then none
  else
    let mant : ℚ := (digitsToNat p2.1 : ℚ) + (digitsToNat p3.1 : ℚ) / ((10 : ℚ) ^ p3.1.length)
    some (p1.1 * mant * (10 : ℚ) ^ readExp p3.2)

/-- JS `parseFloat` applied to a `JsVal` (the argument is first coerced to a
string: finite numbers round-trip to their own value, `null`/`undefined`
stringify to non-numeric text, hence `NaN`, modelled as `none`). -/
def parseFloatJs : JsVal → Option ℚ
  | .num q => some q
  | .str s => parseFloatChars s.data
  | .null => none
  | .undef => none

/-- An element of a provider's artwork array, holding every JSON field the
embedded code reads: `url` (Fanart.tv), `file_path` and the language key value
(`lang` for Fanart.tv, `iso_639_1` for TMDB — per call only one key is read, so a
single field stands for "the value at `languageKey`"), `vote_average` (TMDB) and
`likes` (Fanart.tv). -/
structure Candidate : Type where
  url : Option String
  file_path : JsVal
  lang : JsVal
  vote_average : JsVal
  likes : JsVal
deriving DecidableEq, Repr

/-- The score expression of `selectBestLogo`:
`parseFloat(a.vote_average || a.likes || '0')`. -/
def ratingOf (c : Candidate) : Option ℚ :=
  parseFloatJs (jsOr c.vote_average (jsOr c.likes (.str "0")))

/-- The inner `getLanguagePriority` of `selectBestLogo` (getLogo.ts lines 248-253):
4 on `lang === preferredLanguage`, 3 on `lang === 'en'`, 2 on
`lang === null || lang === ''`, 1 otherwise (note `undefined` is not `=== null`,
so a missing language lands in the last bucket). -/
def LogoService.getLanguagePriority (preferredLanguage : String) (lang : JsVal) : Int :=
  if lang = .str preferredLanguage then 4
  else if lang = .str "en" then 3
  else if lang = .null ∨ lang = .str "" then 2
  else 1

/-- The comparator passed to `logos.sort` in `selectBestLogo` (getLogo.ts lines
243-267), composed with ECMAScript `SortCompare` (a `NaN` comparator result —
which arises exactly when the priorities tie and a rating is `NaN` — is mapped
to `+0`, here the final `match` arm). -/
def LogoService.compareLogos (preferredLanguage : String) (a b : Candidate) : ℚ :=
  let aPriority := getLanguagePriority preferredLanguage a.lang
  let bPriority := getLanguagePriority preferredLanguage b.lang
  if aPriority ≠ bPriority then ((bPriority - aPriority : Int) : ℚ)
  else
    match ratingOf a, ratingOf b with
    | some aRating, some bRating => bRating - aRating
    | _, _ => 0

/-- Stable insertion of `x` into `l`: `x` is placed before the first element it
does not strictly follow.  Used to model `Array.prototype.sort` (stable per
ECMAScript) in a foldr-style insertion sort, where `x` originally precedes every
element of `l`, so on a tie (`cmp x y = 0`) `x` stays in front. -/
def jsInsert (cmp : α → α → ℚ) (x : α) : List α → List α
  | [] => [x]
  | y :: ys => if cmp x y ≤ 0 then x :: y :: ys else y :: jsInsert cmp x ys

/-- Stable sort modelling `Array.prototype.sort` with comparator `cmp`. -/
def jsSort (cmp : α → α → ℚ) : List α → List α
  | [] => []
  | x :: xs => jsInsert cmp x (jsSort cmp xs)

/-- The in-place `logos.sort(comparator)` of `selectBestLogo`: the value the
caller's array holds after the call (for a non-empty input; an empty input
returns before sorting). -/
def LogoService.sortLogos (logos : List Candidate) (preferredLanguage : String) : List Candidate :=
  jsSort (compareLogos preferredLanguage) logos

/-- `selectBestLogo` (getLogo.ts lines 227-270): guard against an empty list,
sort in place by the language-priority comparator, return the first element. -/
def LogoService.selectBestLogo (logos : List Candidate) (preferredLanguage : String) : Option Candidate :=
  if logos = [] then none
  else (sortLogos logos preferredLanguage).head?

/-- The language tier exactly as the specification words it: 4 if the language
equals the preferred language, 3 if it is "en", 2 if it is null or empty,
1 otherwise. -/
def LogoService.claimLanguageTier (preferredLanguage : String) (lang : JsVal) : Int :=
  if lang = .str preferredLanguage then 4
  else if lang = .str "en" then 3
  else if lang = .null ∨ lang = .str "" then 2
  else 1

/-- Kind of a normalised external id (`'imdb' | 'tmdb' | 'tvdb'`). -/
inductive IdType : Type where
  | imdb : IdType
  | tmdb : IdType
  | tvdb : IdType
deriving DecidableEq, Repr

/-- The `{ type, value }` pair produced by the ID parsers (`ExternalId` in
getLogo.ts, `Id` in part_001). -/
structure ExternalId : Type where
  type : IdType
  value : String
deriving DecidableEq, Repr

/-- Strip a literal character sequence from the front of the input. -/
def stripLit : List Char → List Char → Option (List Char)
  | [], cs => some cs
  | _ :: _, [] => none
  | p :: ps, c :: cs => if c = p then stripLit ps cs else none

/-- The optional `(?::\d+:\d+)?$` tail shared by the three ID regexes: accepts
the empty remainder or `:` digits `:` digits up to the end of the string
(maximal digit munching agrees with the backtracking regex here, since a shorter
`\d+` would leave a digit where `:` or the end is required). -/
def seasonEpisodeSuffix (l : List Char) : Bool :=
  match l with
  | [] => true
  | c :: rest =>
      if c = ':' then
        let p1 := takeDigits rest
        if p1.1 = [] then false
        else
          match p1.2 with
          | [] => false
          | c1 :: rest2 =>
              if c1 = ':' then
                let p2 := takeDigits rest2
                if p2.1 = [] then false else p2.2 = []
              else false
      else false

/-- Matches `(\d+)(?::\d+:\d+)?$`, returning the digit capture (the common core
of all the ID regexes once their prefix is stripped). -/
def bareDigitsMatch (cs : List Char) : Option String :=
  let p := takeDigits cs
  if p.1 = [] then none
  else if seasonEpisodeSuffix p.2 then some (String.mk p.1) else none

/-- Matches `^pre[-:](\d+)(?::\d+:\d+)?$` — the shape of the `TMDB_ID_REGEX` and
`TVDB_ID_REGEX` of getLogo.ts and part_001 (`pre` is `tmdb` or `tvdb`). -/
def sepIdMatch (pre cs : List Char) : Option String :=
  match stripLit pre cs with
  | none => none
  | some [] => none
  | some (sep :: rest) =>
      if sep = '-' ∨ sep = ':' then bareDigitsMatch rest else none

/-- Matches `^(?:tt)(\d+)(?::\d+:\d+)?$` — the `IMDB_ID_REGEX` of getLogo.ts and
part_001 (the `tt` prefix is mandatory there). -/
def ttIdMatch (cs : List Char) : Option String :=
  match stripLit ['t', 't'] cs with
  | none => none
  | some rest => bareDigitsMatch rest

/-- `LogoService.parseExternalId` (getLogo.ts lines 95-109): try the TMDB regex,
then IMDB, then TVDB; the captured digits are the value (the imdb value gets the
`tt` prefix back); no match returns null.  (`test` followed by `match` on the
same anchored regex is a single match here.) -/
def LogoService.parseExternalId (id : String) : Option ExternalId :=
  match sepIdMatch ['t', 'm', 'd', 'b'] id.data with
  | some v => some ⟨.tmdb, v⟩
  | none =>
    match ttIdMatch id.data with
    | some v => some ⟨.imdb, "tt" ++ v⟩
    | none =>
      match sepIdMatch ['t', 'v', 'd', 'b'] id.data with
      | some v => some ⟨.tvdb, v⟩
      | none => none

/-- `FanartTV.getParsedId` of part_001 (lines 107-127): same three regexes in
the same order, but the tmdb branch returns the pair only when `type` is
`'movie'` and the tvdb branch only when `type` is `'series'` (otherwise null,
without falling through to the later regexes); the imdb branch is unconditional. -/
def FanartTV2.getParsedId (id : String) (type : String) : Option ExternalId :=
  match sepIdMatch ['t', 'm', 'd', 'b'] id.data with
  | some v => if type = "movie" then some ⟨.tmdb, v⟩ else none
  | none =>
    match ttIdMatch id.data with
    | some v => some ⟨.imdb, "tt" ++ v⟩
    | none =>
      match sepIdMatch ['t', 'v', 'd', 'b'] id.data with
      | some v => if type = "series" then some ⟨.tvdb, v⟩ else none
      | none => none

/-- `FanartTV.parseImdbId` of fanart.ts (lines 119-125): regex
`/^(?:tt)?(\d+)(?::\d+:\d+)?$/` — the `tt` prefix is optional, so bare digit
strings match too; the returned value is always `tt` plus the captured digits.
The second branch models the regex backtracking into the empty `(?:tt)?`
alternative (unreachable in fact, since after a leading `tt` the body would have
to start with the non-digit `t`). -/
def FanartTV1.parseImdbId (id : String) : Option String :=
  match stripLit ['t', 't'] id.data with
  | some rest =>
      (match bareDigitsMatch rest with
       | some ds => some ("tt" ++ ds)
       | none => (bareDigitsMatch id.data).map (fun ds => "tt" ++ ds))
  | none => (bareDigitsMatch id.data).map (fun ds => "tt" ++ ds)

/-- A non-empty all-digit character list (`\d+`). -/
def DigitStr (l : List Char) : Prop := l ≠ [] ∧ ∀ c ∈ l, c.isDigit = true

/-- The language of the optional `:season:episode` suffix, as the claim words it. -/
def SuffixOk (suf : List Char) : Prop :=
  suf = [] ∨ ∃ se ep : List Char, DigitStr se ∧ DigitStr ep ∧ suf = ':' :: (se ++ ':' :: ep)

/-- A well-formed `tmdb[-:]<digits>` id (with optional `:season:episode`), as the
claim words it. -/
def WellFormedTmdb (s : String) : Prop :=
  ∃ (sep : Char) (d suf : List Char), (sep = '-' ∨ sep = ':') ∧ DigitStr d ∧ SuffixOk suf ∧
    s.data = 't' :: 'm' :: 'd' :: 'b' :: sep :: (d ++ suf)

/-- A well-formed `tt<digits>` id (with optional `:season:episode`). -/
def WellFormedImdb (s : String) : Prop :=
  ∃ d suf : List Char, DigitStr d ∧ SuffixOk suf ∧ s.data = 't' :: 't' :: (d ++ suf)

/-- A well-formed `tvdb[-:]<digits>` id (with optional `:season:episode`). -/
def WellFormedTvdb (s : String) : Prop :=
  ∃ (sep : Char) (d suf : List Char), (sep = '-' ∨ sep = ':') ∧ DigitStr d ∧ SuffixOk suf ∧
    s.data = 't' :: 'v' :: 'd' :: 'b' :: sep :: (d ++ suf)

/-- A bare `<digits>` id (with optional `:season:episode`) — accepted only by
fanart.ts's `parseImdbId`. -/
def BareDigits (s : String) : Prop :=
  ∃ d suf : List Char, DigitStr d ∧ SuffixOk suf ∧ s.data = d ++ suf

/-- The `MediaType` of getLogo.ts (`'movie' | 'series' | 'tv'`). -/
inductive MediaType : Type where
  | movie : MediaType
  | series : MediaType
  | tv : MediaType
deriving DecidableEq, Repr

/-- String interpolation of a `MediaType` (as in the cache key template). -/
def typeStr : MediaType → String
  | .movie => "movie"
  | .series => "series"
  | .tv => "tv"

/-- Cache TTL for logo URLs, 24 hours (getLogo.ts line 9). -/
def LOGO_CACHE_TTL : Nat := 24 * 60 * 60

/-- The shared TTL cache for logos: an association list from key to
`(value, ttlSeconds)`.  A stored `none` models a cached JavaScript `null`
("confirmed no artwork"), distinct from the key being absent; entries model the
state within their TTL window (expiry by wall-clock time is outside the model). -/
structure CacheStore : Type where
  entries : List (String × Option String × Nat)
deriving DecidableEq, Repr

/-- Full lookup of a cache entry (value and the TTL it was stored with). -/
def CacheStore.getEntry (c : CacheStore) (k : String) : Option (Option String × Nat) :=
  (c.entries.find? (fun e => e.1 = k)).map (fun e => e.2)

/-- `cache.get(key)`: `none` models JavaScript `undefined` (key absent). -/
def CacheStore.get (c : CacheStore) (k : String) : Option (Option String) :=
  (c.getEntry k).map (fun e => e.1)

/-- `cache.set(key, value, ttlSeconds)`. -/
def CacheStore.set (c : CacheStore) (k : String) (v : Option String) (ttl : Nat) : CacheStore :=
  ⟨(k, v, ttl) :: c.entries⟩

/-- JavaScript truthiness filter for a `string | null` value (`x.url || null`,
`if (logo)` …): an empty string is falsy and collapses to "no result". -/
def jsUrlOrNull : Option String → Option String
  | some s => if s = "" then none else some s
  | none => none

/-- Truthiness test for a `string | null` JavaScript value. -/
def strTruthy : Option String → Bool
  | some s => s ≠ ""
  | none => false

/-- JavaScript `String(v)` as used in template interpolation (`${file_path}`);
number formatting is approximated by `toString` (no claim depends on it). -/
def jsToString : JsVal → String
  | .undef => "undefined"
  | .null => "null"
  | .str s => s
  | .num q => toString q

/-- The TMDB CDN URL built by `getTmdbLogo`:
`https://image.tmdb.org/t/p/original${selectedLogo.file_path}`. -/
def tmdbImageUrl (c : Candidate) : String :=
  "https://image.tmdb.org/t/p/original" ++ jsToString c.file_path

/-- Parsed JSON body of a Fanart.tv logo response: `ok` is the HTTP success flag;
`movielogo` / `clearlogo` are `none` when the field is missing or not an array. -/
structure FanartLogoResp : Type where
  ok : Bool
  movielogo : Option (List Candidate)
  clearlogo : Option (List Candidate)
deriving Repr

/-- Parsed JSON body of a TMDB `find` response: the lists hold the `id` fields of
`movie_results` / `tv_results` (`none` = field missing). -/
structure TmdbFindResp : Type where
  ok : Bool
  movie_results : Option (List Int)
  tv_results : Option (List Int)
deriving Repr

/-- Parsed JSON body of a TMDB images response (`logos` array). -/
structure TmdbImagesResp : Type where
  ok : Bool
  logos : Option (List Candidate)
deriving Repr

/-- Environment of one `LogoService.getLogo` call: which credentials are
configured, and the outcome each of the (at most three) network requests would
have (`.error` models a thrown exception from `makeRequest`/`json()`). -/
structure LogoEnv : Type where
  fanartApiKey : Bool
  tmdbAccessToken : Bool
  fanartResp : Except Unit FanartLogoResp
  tmdbFindResp : Except Unit TmdbFindResp
  tmdbImagesResp : Except Unit TmdbImagesResp

/-- `LogoService.getFanartLogo` (getLogo.ts lines 111-150): build the endpoint
and logo key only for `movie`+tmdb (`movielogo`) or `series`/`tv`+tvdb
(`clearlogo`), otherwise return null before any request; then fetch, null-check
the array, rank with `selectBestLogo`, and return `selectedLogo?.url || null`.
The try/catch makes a thrown exception a null result.  Returns the result and
the number of network requests performed. -/
def LogoService.getFanartLogo (env : LogoEnv) (externalId : ExternalId) (type : MediaType)
    (language : String) : Option String × Nat :=
  let logoKey : Option Bool :=
    if type = .movie ∧ externalId.type = .tmdb then some true
    else if (type = .series ∨ type = .tv) ∧ externalId.type = .tvdb then some false
    else none
  match logoKey with
  | none => (none, 0)
  | some isMovie =>
    match env.fanartResp with
    | .error _ => (none, 1)
    | .ok r =>
      if r.ok = false then (none, 1)
      else
        match (if isMovie then r.movielogo else r.clearlogo) with
        | none => (none, 1)
        | some logos =>
          if logos = [] then (none, 1)
          else
            match selectBestLogo logos language with
            | some c => (jsUrlOrNull c.url, 1)
            | none => (none, 1)

/-- `LogoService.convertToTmdbId` (getLogo.ts lines 201-225): TMDB `find`
request; returns `results[0].id.toString()` of `movie_results`/`tv_results`,
null on failure or an empty result list. -/
def LogoService.convertToTmdbId (env : LogoEnv) (externalId : ExternalId) (type : MediaType) :
    Option String × Nat :=
  match env.tmdbFindResp with
  | .error _ => (none, 1)
  | .ok r =>
    if r.ok = false then (none, 1)
    else
      match (if type = .movie then r.movie_results else r.tv_results) with
      | none => (none, 1)
      | some [] => (none, 1)
      | some (i :: _) => (some (toString i), 1)

/-- `LogoService.getTmdbLogo` (getLogo.ts lines 152-199): convert a non-tmdb id
first (null on conversion failure); then fetch the images endpoint, null-check
`logos`, rank with `selectBestLogo` (language key `iso_639_1`), and build the
CDN URL from `file_path`.  A thrown exception yields null. -/
def LogoService.getTmdbLogo (env : LogoEnv) (externalId : ExternalId) (type : MediaType)
    (language : String) : Option String × Nat :=
  let conv : Option String × Nat :=
    if externalId.type ≠ .tmdb then convertToTmdbId env externalId type
    else (some externalId.value, 0)
  match conv.1 with
  | none => (none, conv.2)
  | some _tmdbId =>
    match env.tmdbImagesResp with
    | .error _ => (none, conv.2 + 1)
    | .ok r =>
      if r.ok = false then (none, conv.2 + 1)
      else
        match r.logos with
        | none => (none, conv.2 + 1)
        | some logos =>
          if logos = [] then (none, conv.2 + 1)
          else
            match selectBestLogo logos language with
            | some c => (some (tmdbImageUrl c), conv.2 + 1)
            | none => (none, conv.2 + 1)

/-- `LogoService.getLogo` (getLogo.ts lines 39-93): cache-aside logo lookup.
Check the cache under `` `${id}-${type}-${language}` `` (a hit — including a
cached null — returns immediately); on a miss parse the id (caching null for an
unparseable id); otherwise try Fanart.tv (if a key is configured), then TMDB
(if a token is configured), caching and returning the first truthy logo, or
caching null when neither yields one.  Every `set` uses `LOGO_CACHE_TTL`.
Returns `(result, cache after the call, network requests performed)`. -/
def LogoService.getLogo (env : LogoEnv) (cache : CacheStore) (id : String) (type : MediaType)
    (language : String) : Option String × CacheStore × Nat :=
  let cacheKey := id ++ "-" ++ typeStr type ++ "-" ++ language
  match cache.get cacheKey with
  | some cachedLogo => (cachedLogo, cache, 0)
  | none =>
    match parseExternalId id with
    | none => (none, cache.set cacheKey none LOGO_CACHE_TTL, 0)
    | some externalId =>
      let f : Option String × Nat :=
        if env.fanartApiKey then getFanartLogo env externalId type language else (none, 0)
      if strTruthy f.1 then (f.1, cache.set cacheKey f.1 LOGO_CACHE_TTL, f.2)
      else
        let t : Option String × Nat :=
          if env.tmdbAccessToken then getTmdbLogo env externalId type language else (none, 0)
        if strTruthy t.1 then (t.1, cache.set cacheKey t.1 LOGO_CACHE_TTL, f.2 + t.2)
        else (none, cache.set cacheKey none LOGO_CACHE_TTL, f.2 + t.2)

/-- State of an `ArtworkProvider` poster lookup (part_000): for each provider,
`none` means the provider is not configured (constructor skipped it), and
`some outcome` gives the outcome its `getPosterUrl` call would have —
`.error` a thrown exception, `.ok` the returned `string | null`. -/
structure APState : Type where
  rpdb : Option (Except Unit (Option String))
  fanart : Option (Except Unit (Option String))

/-- `ArtworkProvider.getPosterUrl` (part_000 lines 41-67): try RPDB first
(exceptions swallowed, truthy URL returned immediately), then Fanart.tv as
fallback (exceptions swallowed), else null.  The boolean records whether the
Fanart.tv provider was invoked. -/
def ArtworkProvider.getPosterUrl (s : APState) : Option String × Bool :=
  let rpdbHit : Option String :=
    match s.rpdb with
    | none => none
    | some (.error _) => none
    | some (.ok u) => jsUrlOrNull u
  match rpdbHit with
  | some url => (some url, false)
  | none =>
    match s.fanart with
    | none => (none, false)
    | some (.error _) => (none, true)
    | some (.ok u) =>
      match jsUrlOrNull u with
      | some url => (some url, true)
      | none => (none, true)

/-- Full-string JavaScript `Number()` conversion of a string (used when `-`
coerces its operands): trimmed empty string is `0`; otherwise the whole string
must be a decimal literal (optional sign, digits with optional fraction and
exponent); `none` models `NaN`.  Hex/octal/binary and `Infinity` literals are
outside the model (never produced by the providers). -/
def numberFullChars (cs0 : List Char) : Option ℚ :=
  let cs := ((cs0.dropWhile isJsSpace).reverse.dropWhile isJsSpace).reverse
  if cs = [] then some 0
  else
    let p1 := readSignQ cs
    let p2 := takeDigits p1.2
    let p3 : List Char × List Char :=
      match p2.2 with
      | '.' :: r => takeDigits r
      | _ => ([], p2.2)
    if p2.1 = [] ∧ p3.1 = [] then none
    else
      let mant : ℚ := (digitsToNat p2.1 : ℚ) + (digitsToNat p3.1 : ℚ) / ((10 : ℚ) ^ p3.1.length)
      match p3.2 with
      | [] => some (p1.1 * mant)
      | e :: rest =>
        if e = 'e' ∨ e = 'E' then
          let es : Int × List Char :=
            match rest with
            | '-' :: r => (-1, r)
            | '+' :: r => (1, r)
            | r => (1, r)
          match takeDigits es.2 with
          | ([], _) => none
          | (ds, []) => some (p1.1 * mant * (10 : ℚ) ^ (es.1 * (digitsToNat ds : Int)))
          | (_, _ :: _) => none
        else none

/-- JavaScript `ToNumber` on a `JsVal` (`none` = `NaN`): numbers are themselves,
`null` is `0`, `undefined` is `NaN`, strings go through `Number()`. -/
def jsToNumber : JsVal → Option ℚ
  | .num q => some q
  | .null => some 0
  | .undef => none
  | .str s => numberFullChars s.data

/-- An element of the fanart.ts poster arrays (`movieposter[]` / `tvposter[]`):
the fields the code reads are `url` and `likes`. -/
structure FanartPoster : Type where
  url : Option String
  likes : JsVal
deriving DecidableEq, Repr

/-- Parsed JSON body of a fanart.ts poster response. -/
structure FanartPosterResp : Type where
  ok : Bool
  movieposter : Option (List FanartPoster)
  tvposter : Option (List FanartPoster)
deriving Repr

/-- The poster comparator of fanart.ts (`(b.likes || 0) - (a.likes || 0)`,
subtraction coercing through `ToNumber`), composed with `SortCompare` mapping a
`NaN` result to `+0` (final `match` arm). -/
def cmpPosterLikes (a b : FanartPoster) : ℚ :=
  match jsToNumber (jsOr b.likes (.num 0)), jsToNumber (jsOr a.likes (.num 0)) with
  | some x, some y => x - y
  | _, _ => 0

/-- Validation-cache for API keys (`Cache.getInstance('fanartApiKey')`): an
association list from key to `(storedBoolean, ttlSeconds)`. -/
structure KeyCache : Type where
  entries : List (String × Bool × Nat)
deriving DecidableEq, Repr

/-- `cache.get(key)` on the validation cache (`none` = `undefined`). -/
def KeyCache.get (c : KeyCache) (k : String) : Option Bool :=
  (c.entries.find? (fun e => e.1 = k)).map (fun e => e.2.1)

/-- `cache.set(key, value, ttlSeconds)` on the validation cache. -/
def KeyCache.set (c : KeyCache) (k : String) (v : Bool) (ttl : Nat) : KeyCache :=
  ⟨(k, v, ttl) :: c.entries⟩

/-- Modelled from the spec: the shared HTTP wrapper (its source, http.ts, is not
under src/) returns a response whose `ok` flag follows fetch semantics — true
exactly for 2xx statuses ("a first real request's HTTP status (401 ⇒ invalid,
2xx ⇒ valid)"). -/
structure HttpResp : Type where
  status : Nat
deriving DecidableEq, Repr

/-- Modelled from the spec: fetch's `Response.ok`, true exactly on 2xx. -/
def HttpResp.ok (r : HttpResp) : Bool := 200 ≤ r.status ∧ r.status ≤ 299

/-- `FanartTV.validateApiKey` of fanart.ts (lines 18-56): return a cached
boolean when present (`cached !== undefined && cached !== null`); otherwise make
the probe request: `ok` (2xx) caches `true`, status 401 caches `false`, any
other status — or a thrown error — returns `false` without caching.  `rpdbTtl`
stands for `Env.RPDB_API_KEY_VALIDITY_CACHE_TTL` (env.ts is not under src/).
Returns `(result, cache after the call, network requests performed)`. -/
def FanartTV1.validateApiKey (resp : Except Unit HttpResp) (rpdbTtl : Nat) (cache : KeyCache)
    (apiKey : String) : Bool × KeyCache × Nat :=
  match cache.get apiKey with
  | some b => (b, cache, 0)
  | none =>
    match resp with
    | .error _ => (false, cache, 1)
    | .ok r =>
      if r.ok then (true, cache.set apiKey true rpdbTtl, 1)
      else if r.status = 401 then (false, cache.set apiKey false rpdbTtl, 1)
      else (false, cache, 1)

/-- `FanartTV.getPosterUrl` of fanart.ts (lines 64-117): parse the id with the
optional-`tt` regex (null short-circuits, no request); build the endpoint for
`'movie'` or `'series'` (any other type: null, no request) — note both endpoints
use the IMDb id; fetch; extract `movieposter`/`tvposter`; sort by likes
descending and return the top `url || null`.  A thrown exception yields null.
Returns the result and the number of network requests performed. -/
def FanartTV1.getPosterUrl (resp : Except Unit FanartPosterResp) (type : String) (id : String) :
    Option String × Nat :=
  match parseImdbId id with
  | none => (none, 0)
  | some _imdbId =>
    if type = "movie" ∨ type = "series" then
      match resp with
      | .error _ => (none, 1)
      | .ok r =>
        if r.ok = false then (none, 1)
        else
          let posters : List FanartPoster :=
            if type = "movie" then
              (match r.movieposter with | some l => l | none => [])
            else
              (match r.tvposter with | some l => l | none => [])
          if posters = [] then (none, 1)
          else
            match (jsSort cmpPosterLikes posters).head? with
            | some p => (jsUrlOrNull p.url, 1)
            | none => (none, 1)
    else (none, 0)

/-- `FanartTV.validateApiKey` of part_001 (lines 27-56): `if (cached) return
cached` — only a cached `true` short-circuits (a cached `false` is falsy and
triggers revalidation); the probe treats every status other than 401 as a valid
key (`response.status !== 401`) and caches that boolean; a thrown error returns
`false` without caching. -/
def FanartTV2.validateApiKey (resp : Except Unit HttpResp) (rpdbTtl : Nat) (cache : KeyCache)
    (apiKey : String) : Bool × KeyCache × Nat :=
  match cache.get apiKey with
  | some true => (true, cache, 0)
  | _ =>
    match resp with
    | .error _ => (false, cache, 1)
    | .ok r =>
      let isValid : Bool := if r.status = 401 then false else true
      (isValid, cache.set apiKey isValid rpdbTtl, 1)

/-- `FanartTV.getPosterUrl` of part_001 (lines 62-77): a synchronous function
that only *builds* the endpoint URL (no network request at all): tmdb id with
`type = 'movie'` gives the movie endpoint, tvdb id with `type = 'series'` the tv
endpoint, anything else null. -/
def FanartTV2.getPosterUrl (apiKey : String) (type : String) (id : String) : Option String :=
  match getParsedId id type with
  | none => none
  | some parsedId =>
    if type = "movie" ∧ parsedId.type = .tmdb then
      some ("https://webservice.fanart.tv/v3/movies/" ++ parsedId.value ++ "?api_key=" ++ apiKey)
    else if type = "series" ∧ parsedId.type = .tvdb then
      some ("https://webservice.fanart.tv/v3/tv/" ++ parsedId.value ++ "?api_key=" ++ apiKey)
    else none

/-- RPDB yields nothing for this lookup: not configured, threw, returned null,
or returned the falsy empty string. -/
def rpdbNoResult (s : APState) : Prop :=
  match s.rpdb with
  | some (.ok u) => jsUrlOrNull u = none
  | _ => True

theorem jsInsert_perm (cmp : α → α → ℚ) (x : α) :
    ∀ l : List α, (jsInsert cmp x l).Perm (x :: l) := by
  intro l
  induction l with
  | nil => simp [jsInsert]
  | cons y ys ih =>
    by_cases h : cmp x y ≤ 0
    · simp [jsInsert, h]
    · simp only [jsInsert, h, if_false]
      exact (ih.cons y).trans (List.Perm.swap x y ys)

theorem jsSort_perm (cmp : α → α → ℚ) :
    ∀ l : List α, (jsSort cmp l).Perm l := by
  intro l
  induction l with
  | nil => simp [jsSort]
  | cons x xs ih =>
    exact (jsInsert_perm cmp x (jsSort cmp xs)).trans (ih.cons x)

/-- The head of the stable sort maximises any measure `f` that the comparator
dominates (the tier of `compareLogos`): this holds even when the comparator is
inconsistent within equal-`f` classes. -/
theorem jsSort_head_ge (cmp : α → α → ℚ) (f : α → Int)
    (Hle : ∀ a b, cmp a b ≤ 0 → f b ≤ f a)
    (Hgt : ∀ a b, 0 < cmp a b → f a ≤ f b) :
    ∀ (l : List α) (m : α), (jsSort cmp l).head? = some m → ∀ d ∈ l, f d ≤ f m := by
  intro l
  induction l with
  | nil => intro m hm d hd; exact absurd hd (List.not_mem_nil d)
  | cons x xs ih =>
    intro m hm d hd
    have hsy : ∀ y ys, jsSort cmp xs = y :: ys → (jsSort cmp xs).head? = some y := by
      intro y ys h; rw [h]; rfl
    rcases hs : jsSort cmp xs with _ | ⟨y, ys⟩
    · have hxs : xs = [] := ((hs ▸ jsSort_perm cmp xs).symm).eq_nil
      rw [show jsSort cmp (x :: xs) = jsInsert cmp x (jsSort cmp xs) from rfl, hs] at hm
      simp only [jsInsert, List.head?, Option.some.injEq] at hm
      rcases List.mem_cons.mp hd with h | h
      · rw [h, hm]
      · rw [hxs] at h; exact absurd h (List.not_mem_nil d)
    · rw [show jsSort cmp (x :: xs) = jsInsert cmp x (jsSort cmp xs) from rfl, hs] at hm
      by_cases hxy : cmp x y ≤ 0
      · simp only [jsInsert, hxy, if_true, List.head?, Option.some.injEq] at hm
        rcases List.mem_cons.mp hd with h | h
        · rw [h, ← hm]
        · exact le_trans (ih y (hsy y ys hs) d h) (hm ▸ Hle x y hxy)
      · simp only [jsInsert, hxy, if_false, List.head?, Option.some.injEq] at hm
        rcases List.mem_cons.mp hd with h | h
        · rw [h, ← hm]; exact Hgt x y (lt_of_not_le hxy)
        · exact hm ▸ ih y (hsy y ys hs) d h

/-- Pairwise ordering of the stable sort output: needs global antisymmetry of the
comparator (`¬ cmp a b ≤ 0 → cmp b a ≤ 0`, which `compareLogos` satisfies even
with `NaN` ratings) and transitivity among the elements actually in the list. -/
theorem jsInsert_pairwise (cmp : α → α → ℚ)
    (Hflip : ∀ a b, ¬ cmp a b ≤ 0 → cmp b a ≤ 0) :
    ∀ (l : List α) (x : α),
      (∀ a b c, a ∈ x :: l → b ∈ x :: l → c ∈ x :: l →
          cmp a b ≤ 0 → cmp b c ≤ 0 → cmp a c ≤ 0) →
      List.Pairwise (fun a b => cmp a b ≤ 0) l →
      List.Pairwise (fun a b => cmp a b ≤ 0) (jsInsert cmp x l) := by
  intro l
  induction l with
  | nil => intro x _ _; simp [jsInsert]
  | cons y ys ih =>
    intro x Ht hp
    by_cases hxy : cmp x y ≤ 0
    · simp only [jsInsert, hxy, if_true]
      refine List.Pairwise.cons ?_ hp
      intro b hb
      rcases List.mem_cons.mp hb with h | h
      · rw [h]; exact h ▸ hxy
      · refine Ht x y b (by simp) (by simp) (by simp [h]) hxy ?_
        exact (List.pairwise_cons.mp hp).1 b h
    · simp only [jsInsert, hxy, if_false]
      refine List.Pairwise.cons ?_ ?_
      · intro b hb
        have hb' := (jsInsert_perm cmp x ys).mem_iff.mp hb
        rcases List.mem_cons.mp hb' with h | h
        · rw [h]; exact Hflip x y hxy
        · exact (List.pairwise_cons.mp hp).1 b h
      · refine ih x ?_ (List.pairwise_cons.mp hp).2
        intro a b c ha hb hc
        have sub : ∀ e, e ∈ x :: ys → e ∈ x :: y :: ys := by
          intro e he
          rcases List.mem_cons.mp he with h | h
          · simp [h]
          · simp [h]
        exact Ht a b c (sub a ha) (sub b hb) (sub c hc)

theorem jsSort_pairwise (cmp : α → α → ℚ)
    (Hflip : ∀ a b, ¬ cmp a b ≤ 0 → cmp b a ≤ 0) :
    ∀ l : List α,
      (∀ a b c, a ∈ l → b ∈ l → c ∈ l → cmp a b ≤ 0 → cmp b c ≤ 0 → cmp a c ≤ 0) →
      List.Pairwise (fun a b => cmp a b ≤ 0) (jsSort cmp l) := by
  intro l
  induction l with
  | nil => intro _; simp [jsSort]
  | cons x xs ih =>
    intro Ht
    refine jsInsert_pairwise cmp Hflip (jsSort cmp xs) x ?_ ?_
    · intro a b c ha hb hc
      have sub : ∀ e, e ∈ x :: jsSort cmp xs → e ∈ x :: xs := by
        intro e he
        rcases List.mem_cons.mp he with h | h
        · simp [h]
        · exact List.mem_cons.mpr (Or.inr ((jsSort_perm cmp xs).mem_iff.mp h))
      exact Ht a b c (sub a ha) (sub b hb) (sub c hc)
    · refine ih ?_
      intro a b c ha hb hc
      exact Ht a b c (List.mem_cons_of_mem x ha) (List.mem_cons_of_mem x hb)
        (List.mem_cons_of_mem x hc)

/-- Stability, filter form: inserting an element of an equivalence class (any two
of whose members compare as `0`) prepends it to the class's sublist. -/
theorem jsInsert_filter_of_mem (cmp : α → α → ℚ) (p : α → Bool) (x : α)
    (hx : p x = true) (hcl : ∀ y, p y = true → ¬ 0 < cmp x y) :
    ∀ l : List α, (jsInsert cmp x l).filter p = x :: l.filter p := by
  intro l
  induction l with
  | nil => simp [jsInsert, hx]
  | cons y ys ih =>
    by_cases hxy : cmp x y ≤ 0
    · simp [jsInsert, hxy, hx]
    · have hpy : p y = false := by
        cases h : p y with
        | true => exact absurd (lt_of_not_le hxy) (hcl y h)
        | false => rfl
      simp [jsInsert, hxy, hpy, ih]

theorem jsInsert_filter_of_not (cmp : α → α → ℚ) (p : α → Bool) (x : α)
    (hx : p x = false) :
    ∀ l : List α, (jsInsert cmp x l).filter p = l.filter p := by
  intro l
  induction l with
  | nil => simp [jsInsert, hx]
  | cons y ys ih =>
    by_cases hxy : cmp x y ≤ 0
    · simp [jsInsert, hxy, hx]
    · simp [jsInsert, hxy, List.filter_cons, ih]

/-- The stable sort leaves every comparator-null class (all mutual comparisons `0`)
in its original relative order. -/
theorem jsSort_filter (cmp : α → α → ℚ) (p : α → Bool)
    (hcl : ∀ a b, p a = true → p b = true → cmp a b = 0) :
    ∀ l : List α, (jsSort cmp l).filter p = l.filter p := by
  intro l
  induction l with
  | nil => rfl
  | cons x xs ih =>
    show (jsInsert cmp x (jsSort cmp xs)).filter p = (x :: xs).filter p
    cases hx : p x with
    | true =>
      rw [jsInsert_filter_of_mem cmp p x hx
        (fun y hy => by rw [hcl x y hx hy]; exact lt_irrefl 0), ih]
      simp [List.filter, hx]
    | false =>
      rw [jsInsert_filter_of_not cmp p x hx, ih]
      simp [List.filter, hx]

theorem LogoService.compareLogos_le_tier (pref : String) (a b : Candidate)
    (h : compareLogos pref a b ≤ 0) :
    getLanguagePriority pref b.lang ≤ getLanguagePriority pref a.lang := by
  unfold compareLogos at h
  by_cases he : getLanguagePriority pref a.lang = getLanguagePriority pref b.lang
  · exact le_of_eq he.symm
  · simp only [he, ne_eq, not_false_eq_true, if_true] at h
    have : ((getLanguagePriority pref b.lang - getLanguagePriority pref a.lang : Int) : ℚ) ≤ 0 := h
    exact_mod_cast sub_nonpos.mp (by exact_mod_cast this)

theorem LogoService.compareLogos_pos_tier (pref : String) (a b : Candidate)
    (h : 0 < compareLogos pref a b) :
    getLanguagePriority pref a.lang ≤ getLanguagePriority pref b.lang := by
  unfold compareLogos at h
  by_cases he : getLanguagePriority pref a.lang = getLanguagePriority pref b.lang
  · exact le_of_eq he
  · simp only [he, ne_eq, not_false_eq_true, if_true] at h
    have : (0 : ℚ) < ((getLanguagePriority pref b.lang - getLanguagePriority pref a.lang : Int) : ℚ) := h
    have h2 : (0 : Int) < getLanguagePriority pref b.lang - getLanguagePriority pref a.lang := by
      exact_mod_cast this
    omega

theorem LogoService.compareLogos_flip (pref : String) (a b : Candidate)
    (h : ¬ compareLogos pref a b ≤ 0) : compareLogos pref b a ≤ 0 := by
  have hpos := lt_of_not_le h
  unfold compareLogos at hpos ⊢
  by_cases he : getLanguagePriority pref a.lang = getLanguagePriority pref b.lang
  · simp only [he, ne_eq, not_true_eq_false, if_false] at hpos ⊢
    rcases ha : ratingOf a with _ | x <;> rcases hb : ratingOf b with _ | y <;>
      simp only [ha, hb] at hpos ⊢ <;> linarith
  · have he' : ¬ getLanguagePriority pref b.lang = getLanguagePriority pref a.lang :=
      fun hh => he hh.symm
    simp only [he, he', ne_eq, not_false_eq_true, if_true] at hpos ⊢
    have h2 : (0 : Int) < getLanguagePriority pref b.lang - getLanguagePriority pref a.lang := by
      exact_mod_cast hpos
    have h3 : (getLanguagePriority pref a.lang - getLanguagePriority pref b.lang : Int) ≤ 0 := by
      omega
    exact_mod_cast Int.cast_nonpos.mpr h3

/-- Characterisation of the comparator on candidates with numeric ratings. -/
theorem LogoService.compareLogos_le_iff (pref : String) (a b : Candidate) (x y : ℚ)
    (ha : ratingOf a = some x) (hb : ratingOf b = some y) :
    compareLogos pref a b ≤ 0 ↔
      (getLanguagePriority pref b.lang < getLanguagePriority pref a.lang ∨
       (getLanguagePriority pref a.lang = getLanguagePriority pref b.lang ∧ y ≤ x)) := by
  unfold compareLogos
  by_cases he : getLanguagePriority pref a.lang = getLanguagePriority pref b.lang
  · rw [if_neg (by simpa using he), ha, hb]
    show y - x ≤ 0 ↔ _
    constructor
    · intro h
      exact Or.inr ⟨he, by linarith⟩
    · rintro (h | ⟨_, h2⟩)
      · exact absurd he (by omega)
      · linarith
  · rw [if_pos (by simpa using he)]
    constructor
    · intro h
      have h2 : (getLanguagePriority pref b.lang - getLanguagePriority pref a.lang : Int) ≤ 0 := by
        exact_mod_cast h
      exact Or.inl (by omega)
    · rintro (h | ⟨h2, _⟩)
      · have h3 : (getLanguagePriority pref b.lang - getLanguagePriority pref a.lang : Int) ≤ 0 := by
          omega
        exact_mod_cast Int.cast_nonpos.mpr h3
      · exact absurd h2 he

theorem LogoService.compareLogos_trans (pref : String) (a b c : Candidate)
    (ha : (ratingOf a).isSome) (hb : (ratingOf b).isSome) (hc : (ratingOf c).isSome)
    (hab : compareLogos pref a b ≤ 0) (hbc : compareLogos pref b c ≤ 0) :
    compareLogos pref a c ≤ 0 := by
  obtain ⟨x, hx⟩ := Option.isSome_iff_exists.mp ha
  obtain ⟨y, hy⟩ := Option.isSome_iff_exists.mp hb
  obtain ⟨z, hz⟩ := Option.isSome_iff_exists.mp hc
  rw [compareLogos_le_iff pref a b x y hx hy] at hab
  rw [compareLogos_le_iff pref b c y z hy hz] at hbc
  rw [compareLogos_le_iff pref a c x z hx hz]
  rcases hab with h1 | ⟨h1, h1r⟩ <;> rcases hbc with h2 | ⟨h2, h2r⟩
  · exact Or.inl (by omega)
  · exact Or.inl (by omega)
  · exact Or.inl (by omega)
  · exact Or.inr ⟨by omega, le_trans h2r h1r⟩

/-- Shared head-extraction for `selectBestLogo` on non-empty input: the returned
candidate is the head of the sorted array and an element of the input. -/
theorem selectBestLogo_head_mem (pref : String) (logos : List Candidate)
    (h : logos ≠ []) :
    ∃ c, LogoService.selectBestLogo logos pref = some c ∧ c ∈ logos ∧
      (LogoService.sortLogos logos pref).head? = some c := by
  cases hs : LogoService.sortLogos logos pref with
  | nil =>
    have hperm : (LogoService.sortLogos logos pref).Perm logos :=
      jsSort_perm (LogoService.compareLogos pref) logos
    rw [hs] at hperm
    exact absurd hperm.symm.eq_nil h
  | cons c t =>
    have hperm : (LogoService.sortLogos logos pref).Perm logos :=
      jsSort_perm (LogoService.compareLogos pref) logos
    refine ⟨c, ?_, ?_, rfl⟩
    · simp [LogoService.selectBestLogo, h, hs]
    · rw [hs] at hperm
      exact hperm.mem_iff.mp (List.mem_cons_self c t)

/-- C1: for every candidate list and preferred language, `selectBestLogo` assigns
each candidate the claimed language tier (the code's `getLanguagePriority`
coincides with the tier formula `4`/`3`/`2`/`1` worded by the specification),
tier strictly dominates score (the returned candidate's tier is maximal over the
whole list, regardless of any score), the top-ranked candidate — the head of the
sorted array — is returned, and the empty list returns `null`. -/
theorem LogoService.selectBestLogo_tier_spec :
    ∀ (pref : String) (logos : List Candidate),
      selectBestLogo ([] : List Candidate) pref = none ∧
      (∀ lang, getLanguagePriority pref lang = claimLanguageTier pref lang) ∧
      (logos ≠ [] →
        selectBestLogo logos pref = (sortLogos logos pref).head? ∧
        ∃ c, selectBestLogo logos pref = some c ∧ c ∈ logos ∧
          ∀ d ∈ logos, getLanguagePriority pref d.lang ≤ getLanguagePriority pref c.lang) := by
  intro pref logos
  refine ⟨by simp [selectBestLogo], fun lang => rfl, fun h => ⟨by simp [selectBestLogo, h], ?_⟩⟩
  obtain ⟨c, hsel, hmem, hhead⟩ := selectBestLogo_head_mem pref logos h
  refine ⟨c, hsel, hmem, ?_⟩
  exact jsSort_head_ge (compareLogos pref) (fun d => getLanguagePriority pref d.lang)
    (fun a b hab => compareLogos_le_tier pref a b hab)
    (fun a b hab => compareLogos_pos_tier pref a b hab) logos c hhead

/-- Witness for C1 at a concrete two-candidate list. -/
theorem LogoService.selectBestLogo_tier_spec_witness :
    ([⟨some "a.png", .undef, .str "fr", .undef, .str "9"⟩,
      ⟨some "b.png", .undef, .str "en", .undef, .str "1"⟩] : List Candidate) ≠ [] ∧
    (selectBestLogo
        [⟨some "a.png", .undef, .str "fr", .undef, .str "9"⟩,
         ⟨some "b.png", .undef, .str "en", .undef, .str "1"⟩] "en"
       = (sortLogos
        [⟨some "a.png", .undef, .str "fr", .undef, .str "9"⟩,
         ⟨some "b.png", .undef, .str "en", .undef, .str "1"⟩] "en").head? ∧
     ∃ c, selectBestLogo
        [⟨some "a.png", .undef, .str "fr", .undef, .str "9"⟩,
         ⟨some "b.png", .undef, .str "en", .undef, .str "1"⟩] "en" = some c ∧
       c ∈ ([⟨some "a.png", .undef, .str "fr", .undef, .str "9"⟩,
             ⟨some "b.png", .undef, .str "en", .undef, .str "1"⟩] : List Candidate) ∧
       ∀ d ∈ ([⟨some "a.png", .undef, .str "fr", .undef, .str "9"⟩,
               ⟨some "b.png", .undef, .str "en", .undef, .str "1"⟩] : List Candidate),
         getLanguagePriority "en" d.lang ≤ getLanguagePriority "en" c.lang) :=
  ⟨by simp,
   (LogoService.selectBestLogo_tier_spec "en"
     [⟨some "a.png", .undef, .str "fr", .undef, .str "9"⟩,
      ⟨some "b.png", .undef, .str "en", .undef, .str "1"⟩]).2.2 (by simp)⟩

/-- C10: `selectBestLogo` sorts the caller's array in place — after a call on a
non-empty list the array holds a permutation of the input in ranking order, the
returned candidate belongs to the original list, and on the concrete two-element
list below the array's value genuinely changes. -/
theorem LogoService.selectBestLogo_permutes :
    (∀ (pref : String) (logos : List Candidate), logos ≠ [] →
       (sortLogos logos pref).Perm logos ∧
       ∃ c, selectBestLogo logos pref = some c ∧ c ∈ logos) ∧
    sortLogos [⟨some "a.png", .undef, .str "fr", .undef, .str "1"⟩,
               ⟨some "b.png", .undef, .str "en", .undef, .str "1"⟩] "en"
      ≠ [⟨some "a.png", .undef, .str "fr", .undef, .str "1"⟩,
         ⟨some "b.png", .undef, .str "en", .undef, .str "1"⟩] := by
  constructor
  · intro pref logos h
    refine ⟨jsSort_perm (compareLogos pref) logos, ?_⟩
    obtain ⟨c, hsel, hmem, _⟩ := selectBestLogo_head_mem pref logos h
    exact ⟨c, hsel, hmem⟩
  · decide

/-- Witness for C10 at a concrete singleton list. -/
theorem LogoService.selectBestLogo_permutes_witness :
    ([⟨some "a.png", .undef, .null, .undef, .str "3"⟩] : List Candidate) ≠ [] ∧
    ((sortLogos [⟨some "a.png", .undef, .null, .undef, .str "3"⟩] "en").Perm
        [⟨some "a.png", .undef, .null, .undef, .str "3"⟩] ∧
      ∃ c, selectBestLogo [⟨some "a.png", .undef, .null, .undef, .str "3"⟩] "en" = some c ∧
        c ∈ ([⟨some "a.png", .undef, .null, .undef, .str "3"⟩] : List Candidate)) :=
  ⟨by simp,
   LogoService.selectBestLogo_permutes.1 "en"
     [⟨some "a.png", .undef, .null, .undef, .str "3"⟩] (by simp)⟩

theorem isJsSpace_of_digit (c : Char) (h : c.isDigit = true) : isJsSpace c = false := by
  unfold isJsSpace
  by_cases h1 : c = ' '
  · rw [h1] at h; exact absurd h (by decide)
  · by_cases h2 : c = '\t'
    · rw [h2] at h; exact absurd h (by decide)
    · by_cases h3 : c = '\n'
      · rw [h3] at h; exact absurd h (by decide)
      · by_cases h4 : c = '\r'
        · rw [h4] at h; exact absurd h (by decide)
        · simp [h1, h2, h3, h4]

theorem readSignQ_digit (c : Char) (cs : List Char) (h : c.isDigit = true) :
    readSignQ (c :: cs) = (1, c :: cs) := by
  unfold readSignQ
  split
  · next heq =>
    injection heq with h1 _
    rw [h1] at h
    exact absurd h (by decide)
  · next heq =>
    injection heq with h1 _
    rw [h1] at h
    exact absurd h (by decide)
  · rfl

theorem takeDigits_of_digits (ds rest : List Char)
    (hd : ∀ c ∈ ds, c.isDigit = true)
    (hr : ∀ c, rest.head? = some c → c.isDigit = false) :
    takeDigits (ds ++ rest) = (ds, rest) := by
  induction ds with
  | nil =>
    cases rest with
    | nil => rfl
    | cons c cs =>
      simp only [List.nil_append]
      unfold takeDigits
      rw [hr c rfl]
      simp
  | cons c cs ih =>
    have hc : c.isDigit = true := hd c (List.mem_cons_self c cs)
    simp only [List.cons_append]
    unfold takeDigits
    rw [hc]
    simp only [if_true]
    rw [ih (fun d hdm => hd d (List.mem_cons_of_mem c hdm))]

theorem takeDigits_spec (l : List Char) :
    ∀ a b, takeDigits l = (a, b) →
      l = a ++ b ∧ (∀ c ∈ a, c.isDigit = true) ∧
        (∀ c, b.head? = some c → c.isDigit = false) := by
  induction l with
  | nil =>
    intro a b h
    obtain ⟨rfl, rfl⟩ := Prod.mk.injEq .. ▸ h
    exact ⟨rfl, by simp, by simp⟩
  | cons c cs ih =>
    intro a b h
    unfold takeDigits at h
    by_cases hc : c.isDigit = true
    · rw [hc] at h
      simp only [if_true] at h
      rcases ht : takeDigits cs with ⟨a1, b1⟩
      rw [ht] at h
      obtain ⟨rfl, rfl⟩ := Prod.mk.injEq .. ▸ h
      obtain ⟨he, hall, hh⟩ := ih a1 b1 ht
      refine ⟨by rw [List.cons_append, he], ?_, hh⟩
      intro d hdm
      rcases List.mem_cons.mp hdm with h1 | h1
      · rw [h1]; exact hc
      · exact hall d h1
    · rw [Bool.not_eq_true] at hc
      rw [hc] at h
      simp only [if_false] at h
      obtain ⟨rfl, rfl⟩ := Prod.mk.injEq .. ▸ h
      exact ⟨rfl, by simp, fun d hdm => by
        simp only [List.head?, Option.some.injEq] at hdm
        rw [← hdm]; exact hc⟩

/-- Evaluating the `parseFloat` model on a plain (non-empty) digit string. -/
theorem parseFloatChars_digits (ds : List Char) (h0 : ds ≠ [])
    (hd : ∀ c ∈ ds, c.isDigit = true) :
    parseFloatChars ds = some (digitsToNat ds : ℚ) := by
  obtain ⟨c, cs, rfl⟩ : ∃ c cs, ds = c :: cs := by
    cases ds with
    | nil => exact absurd rfl h0
    | cons c cs => exact ⟨c, cs, rfl⟩
  have hc : c.isDigit = true := hd c (List.mem_cons_self c cs)
  unfold parseFloatChars
  have hdrop : List.dropWhile isJsSpace (c :: cs) = c :: cs := by
    rw [List.dropWhile_cons, isJsSpace_of_digit c hc]
    simp
  rw [hdrop]
  have htd : takeDigits (c :: cs) = (c :: cs, []) := by
    have h1 := takeDigits_of_digits (c :: cs) [] (by simpa using hd) (by simp)
    simpa using h1
  simp only [readSignQ_digit c cs hc, htd]
  norm_num [readExp, show digitsToNat [] = 0 from rfl]
  exact fun h => absurd h (List.cons_ne_nil c cs)

/-- C2 counterexample: two candidates in the same tier (both `lang = null`), the
first with non-numeric likes `"abc"` (whose `parseFloat` is `NaN`, not `0`) and
the second with likes `"5"`.  If the non-numeric score were treated as `0`,
sorting by score descending would have to return the second candidate; the
code's comparator maps the `NaN` comparison to `0`, so the stable sort keeps the
input order and `selectBestLogo` returns the first candidate instead. -/
theorem LogoService.selectBestLogo_nan_not_zero :
    selectBestLogo
        [⟨some "nan.png", .undef, .null, .undef, .str "abc"⟩,
         ⟨some "five.png", .undef, .null, .undef, .str "5"⟩] "en"
      = some ⟨some "nan.png", .undef, .null, .undef, .str "abc"⟩ ∧
    getLanguagePriority "en" JsVal.null = getLanguagePriority "en" JsVal.null ∧
    ratingOf ⟨some "nan.png", .undef, .null, .undef, .str "abc"⟩ = none ∧
    ratingOf ⟨some "five.png", .undef, .null, .undef, .str "5"⟩ = some 5 ∧
    (⟨some "nan.png", .undef, .null, .undef, .str "abc"⟩ : Candidate)
      ≠ ⟨some "five.png", .undef, .null, .undef, .str "5"⟩ := by
  refine ⟨by decide, rfl, by decide, ?_, by decide⟩
  show parseFloatChars "5".data = some 5
  rw [show ("5" : String).data = ['5'] from rfl,
    parseFloatChars_digits ['5'] (by decide) (by decide)]
  norm_num [show digitsToNat ['5'] = 5 from by decide]

/-- C2 (amended): within a single tier `selectBestLogo` orders candidates whose
scores all parse to numbers by score descending (a missing score falls back to
`parseFloat('0') = 0`); ties — and every comparison involving a non-numeric
(`NaN`) score, which the comparator reports as `0` rather than treating the
score as `0` — keep the provider-returned order: the sort is stable, stated here
as filter-invariance of every (tier, parsed score) class. -/
theorem LogoService.selectBestLogo_within_tier :
    ∀ (pref : String) (logos : List Candidate),
      ((∀ c ∈ logos, (ratingOf c).isSome) →
        List.Pairwise
          (fun a b =>
            getLanguagePriority pref b.lang < getLanguagePriority pref a.lang ∨
            (getLanguagePriority pref a.lang = getLanguagePriority pref b.lang ∧
              (ratingOf b).getD 0 ≤ (ratingOf a).getD 0))
          (sortLogos logos pref)) ∧
      (∀ (t : Int) (r : Option ℚ),
        (sortLogos logos pref).filter
            (fun c => decide (getLanguagePriority pref c.lang = t) && decide (ratingOf c = r))
          = logos.filter
            (fun c => decide (getLanguagePriority pref c.lang = t) && decide (ratingOf c = r))) ∧
      (∀ c : Candidate, c.vote_average = .undef → c.likes = .undef → ratingOf c = some 0) := by
  intro pref logos
  refine ⟨?_, ?_, ?_⟩
  · intro hnum
    have hp : List.Pairwise (fun a b => compareLogos pref a b ≤ 0) (sortLogos logos pref) := by
      refine jsSort_pairwise (compareLogos pref) (compareLogos_flip pref) logos ?_
      intro a b c ha hb hc hab hbc
      exact compareLogos_trans pref a b c (hnum a ha) (hnum b hb) (hnum c hc) hab hbc
    refine List.Pairwise.imp_of_mem ?_ hp
    intro a b ha hb hab
    have ha' : a ∈ logos := (jsSort_perm (compareLogos pref) logos).mem_iff.mp ha
    have hb' : b ∈ logos := (jsSort_perm (compareLogos pref) logos).mem_iff.mp hb
    obtain ⟨x, hx⟩ := Option.isSome_iff_exists.mp (hnum a ha')
    obtain ⟨y, hy⟩ := Option.isSome_iff_exists.mp (hnum b hb')
    have := (compareLogos_le_iff pref a b x y hx hy).mp hab
    rcases this with h | ⟨h1, h2⟩
    · exact Or.inl h
    · exact Or.inr ⟨h1, by rw [hx, hy]; simpa using h2⟩
  · intro t r
    refine jsSort_filter (compareLogos pref) _ ?_ logos
    intro a b hpa hpb
    simp only [Bool.and_eq_true, decide_eq_true_eq] at hpa hpb
    unfold compareLogos
    rw [if_neg (by simp [hpa.1, hpb.1]), hpa.2, hpb.2]
    cases r with
    | none => rfl
    | some q => show q - q = 0; exact sub_self q
  · intro c h1 h2
    unfold ratingOf
    rw [h1, h2]
    show parseFloatChars "0".data = some 0
    rw [show ("0" : String).data = ['0'] from rfl,
      parseFloatChars_digits ['0'] (by decide) (by decide)]
    norm_num [show digitsToNat ['0'] = 0 from by decide]

/-- Witness for C2 (amended) at a concrete all-numeric list. -/
theorem LogoService.selectBestLogo_within_tier_witness :
    (∀ c ∈ ([⟨some "x.png", .undef, .str "en", .num 3, .undef⟩,
             ⟨some "y.png", .undef, .str "en", .num 7, .undef⟩] : List Candidate),
        (ratingOf c).isSome) ∧
    List.Pairwise
      (fun a b =>
        getLanguagePriority "en" b.lang < getLanguagePriority "en" a.lang ∨
        (getLanguagePriority "en" a.lang = getLanguagePriority "en" b.lang ∧
          (ratingOf b).getD 0 ≤ (ratingOf a).getD 0))
      (sortLogos [⟨some "x.png", .undef, .str "en", .num 3, .undef⟩,
                  ⟨some "y.png", .undef, .str "en", .num 7, .undef⟩] "en") :=
  ⟨by decide,
   (LogoService.selectBestLogo_within_tier "en"
      [⟨some "x.png", .undef, .str "en", .num 3, .undef⟩,
       ⟨some "y.png", .undef, .str "en", .num 7, .undef⟩]).1 (by decide)⟩

theorem suffixOk_head (suf : List Char) (h : SuffixOk suf) :
    ∀ c, suf.head? = some c → c.isDigit = false := by
  rcases h with rfl | ⟨se, ep, _, _, rfl⟩
  · intro c hc; simp at hc
  · intro c hc
    simp only [List.head?, Option.some.injEq] at hc
    rw [← hc]; rfl

theorem sesuffix_of_ok (suf : List Char) (h : SuffixOk suf) :
    seasonEpisodeSuffix suf = true := by
  rcases h with rfl | ⟨se, ep, hse, hep, rfl⟩
  · rfl
  · have h1 : takeDigits (se ++ ':' :: ep) = (se, ':' :: ep) :=
      takeDigits_of_digits se (':' :: ep) hse.2
        (fun c hc => by
          simp only [List.head?, Option.some.injEq] at hc
          rw [← hc]; rfl)
    have h2 : takeDigits ep = (ep, []) := by
      have h3 := takeDigits_of_digits ep [] hep.2 (by simp)
      simpa using h3
    unfold seasonEpisodeSuffix
    simp [h1, h2, hse.1, hep.1]

theorem bareDigitsMatch_complete (d suf : List Char) (hd : DigitStr d) (hs : SuffixOk suf) :
    bareDigitsMatch (d ++ suf) = some (String.mk d) := by
  have h1 : takeDigits (d ++ suf) = (d, suf) :=
    takeDigits_of_digits d suf hd.2 (suffixOk_head suf hs)
  unfold bareDigitsMatch
  simp only [h1]
  rw [if_neg hd.1, if_pos (sesuffix_of_ok suf hs)]

theorem stripLit_append : ∀ p r : List Char, stripLit p (p ++ r) = some r := by
  intro p
  induction p with
  | nil => intro r; rfl
  | cons c cs ih =>
    intro r
    simp only [List.cons_append]
    unfold stripLit
    rw [if_pos rfl]
    exact ih r

theorem sepIdMatch_complete (pre : List Char) (sep : Char) (d suf : List Char)
    (hsep : sep = '-' ∨ sep = ':') (hd : DigitStr d) (hs : SuffixOk suf) :
    sepIdMatch pre (pre ++ sep :: (d ++ suf)) = some (String.mk d) := by
  unfold sepIdMatch
  rw [stripLit_append]
  show (if sep = '-' ∨ sep = ':' then bareDigitsMatch (d ++ suf) else none)
      = some (String.mk d)
  rw [if_pos hsep]
  exact bareDigitsMatch_complete d suf hd hs

theorem ttIdMatch_complete (d suf : List Char) (hd : DigitStr d) (hs : SuffixOk suf) :
    ttIdMatch ('t' :: 't' :: (d ++ suf)) = some (String.mk d) := by
  unfold ttIdMatch
  rw [show ('t' :: 't' :: (d ++ suf)) = ['t', 't'] ++ (d ++ suf) from rfl, stripLit_append]
  exact bareDigitsMatch_complete d suf hd hs

theorem stripLit_sound : ∀ p cs r : List Char, stripLit p cs = some r → cs = p ++ r := by
  intro p
  induction p with
  | nil =>
    intro cs r h
    simp only [List.nil_append]
    exact Option.some.inj h
  | cons c cs' ih =>
    intro cs r h
    cases cs with
    | nil => exact absurd h (by simp [stripLit])
    | cons a as =>
      unfold stripLit at h
      by_cases hac : a = c
      · rw [if_pos hac] at h
        rw [hac, ih as r h]
        rfl
      · rw [if_neg hac] at h
        exact absurd h (by simp)

theorem seasonEpisodeSuffix_cons (c : Char) (rest : List Char) :
    seasonEpisodeSuffix (c :: rest) =
      if c = ':' then
        (let p1 := takeDigits rest
         if p1.1 = [] then false
         else
           match p1.2 with
           | [] => false
           | c1 :: rest2 =>
               if c1 = ':' then
                 let p2 := takeDigits rest2
                 if p2.1 = [] then false else decide (p2.2 = [])
               else false)
      else false := rfl

theorem sesuffix_sound : ∀ suf : List Char, seasonEpisodeSuffix suf = true → SuffixOk suf := by
  intro suf h
  cases suf with
  | nil => exact Or.inl rfl
  | cons c rest =>
    rw [seasonEpisodeSuffix_cons] at h
    by_cases hc : c = ':'
    case neg => rw [if_neg hc] at h; exact absurd h (by simp)
    rw [if_pos hc] at h
    rcases ht : takeDigits rest with ⟨d1, b1⟩
    simp only [ht] at h
    rcases hd1 : d1 with _ | ⟨x, xs⟩
    · rw [hd1, if_pos rfl] at h; exact absurd h (by simp)
    rw [hd1] at h
    rw [if_neg (List.cons_ne_nil x xs)] at h
    cases b1 with
    | nil => exact absurd h (by simp)
    | cons c1 rest2 =>
      replace h := show (if c1 = ':' then
          (if (takeDigits rest2).1 = [] then false
           else decide ((takeDigits rest2).2 = [])) else false) = true from h
      by_cases hc1 : c1 = ':'
      case neg => rw [if_neg hc1] at h; exact absurd h (by simp)
      rw [if_pos hc1] at h
      rcases ht2 : takeDigits rest2 with ⟨d2, b2⟩
      simp only [ht2] at h
      rcases hd2 : d2 with _ | ⟨y, ys⟩
      · rw [hd2, if_pos rfl] at h; exact absurd h (by simp)
      rw [hd2] at h
      rw [if_neg (List.cons_ne_nil y ys)] at h
      have hb2 : b2 = [] := by simpa using h
      obtain ⟨he1, hdig1, _⟩ := takeDigits_spec rest _ _ ht
      obtain ⟨he2, hdig2, _⟩ := takeDigits_spec rest2 _ _ ht2
      refine Or.inr ⟨x :: xs, y :: ys,
        ⟨List.cons_ne_nil x xs, by rw [← hd1]; exact hdig1⟩,
        ⟨List.cons_ne_nil y ys, by rw [← hd2]; exact hdig2⟩, ?_⟩
      rw [hc, he1, hd1, hc1, he2, hd2, hb2, List.append_nil]

theorem bareDigitsMatch_sound (cs : List Char) (v : String)
    (h : bareDigitsMatch cs = some v) :
    ∃ d suf, DigitStr d ∧ SuffixOk suf ∧ cs = d ++ suf ∧ v = String.mk d := by
  unfold bareDigitsMatch at h
  rcases ht : takeDigits cs with ⟨d, b⟩
  simp only [ht] at h
  by_cases hd : d = []
  · rw [if_pos hd] at h; exact absurd h (by simp)
  · rw [if_neg hd] at h
    by_cases hs : seasonEpisodeSuffix b = true
    · rw [if_pos hs] at h
      obtain ⟨he, hdig, _⟩ := takeDigits_spec cs d b ht
      injection h with h
      exact ⟨d, b, ⟨hd, hdig⟩, sesuffix_sound b hs, he, h.symm⟩
    · rw [if_neg hs] at h
      exact absurd h (by simp)

theorem sepIdMatch_sound (pre cs : List Char) (v : String)
    (h : sepIdMatch pre cs = some v) :
    ∃ sep d suf, (sep = '-' ∨ sep = ':') ∧ DigitStr d ∧ SuffixOk suf ∧
      cs = pre ++ sep :: (d ++ suf) ∧ v = String.mk d := by
  unfold sepIdMatch at h
  rcases hsl : stripLit pre cs with _ | rest
  · rw [hsl] at h; simp at h
  · rw [hsl] at h
    cases rest with
    | nil => simp at h
    | cons sep rest2 =>
      change (if sep = '-' ∨ sep = ':' then bareDigitsMatch rest2 else none) = some v at h
      by_cases hsep : sep = '-' ∨ sep = ':'
      · rw [if_pos hsep] at h
        obtain ⟨d, suf, hd, hs, he, hv⟩ := bareDigitsMatch_sound rest2 v h
        refine ⟨sep, d, suf, hsep, hd, hs, ?_, hv⟩
        rw [stripLit_sound pre cs (sep :: rest2) hsl, he]
      · rw [if_neg hsep] at h
        exact absurd h (by simp)

theorem ttIdMatch_sound (cs : List Char) (v : String) (h : ttIdMatch cs = some v) :
    ∃ d suf, DigitStr d ∧ SuffixOk suf ∧ cs = 't' :: 't' :: (d ++ suf) ∧ v = String.mk d := by
  unfold ttIdMatch at h
  rcases hsl : stripLit ['t', 't'] cs with _ | rest
  · rw [hsl] at h; simp at h
  · rw [hsl] at h
    change bareDigitsMatch rest = some v at h
    obtain ⟨d, suf, hd, hs, he, hv⟩ := bareDigitsMatch_sound rest v h
    refine ⟨d, suf, hd, hs, ?_, hv⟩
    rw [stripLit_sound ['t', 't'] cs rest hsl, he]
    rfl

theorem parseImdbId_sound (s v : String) (h : FanartTV1.parseImdbId s = some v) :
    WellFormedImdb s ∨ BareDigits s := by
  unfold FanartTV1.parseImdbId at h
  rcases hsl : stripLit ['t', 't'] s.data with _ | rest
  · rw [hsl] at h
    change (bareDigitsMatch s.data).map (fun ds => "tt" ++ ds) = some v at h
    rcases hb : bareDigitsMatch s.data with _ | ds
    · rw [hb] at h; simp at h
    · obtain ⟨d, suf, hd, hs2, he, _⟩ := bareDigitsMatch_sound s.data ds hb
      exact Or.inr ⟨d, suf, hd, hs2, he⟩
  · rw [hsl] at h
    change (match bareDigitsMatch rest with
        | some ds => some ("tt" ++ ds)
        | none => (bareDigitsMatch s.data).map (fun ds => "tt" ++ ds)) = some v at h
    rcases hb : bareDigitsMatch rest with _ | ds
    · rw [hb] at h
      change (bareDigitsMatch s.data).map (fun ds => "tt" ++ ds) = some v at h
      rcases hb2 : bareDigitsMatch s.data with _ | ds2
      · rw [hb2] at h; simp at h
      · obtain ⟨d, suf, hd, hs2, he, _⟩ := bareDigitsMatch_sound s.data ds2 hb2
        exact Or.inr ⟨d, suf, hd, hs2, he⟩
    · obtain ⟨d, suf, hd, hs2, he, _⟩ := bareDigitsMatch_sound rest ds hb
      refine Or.inl ⟨d, suf, hd, hs2, ?_⟩
      rw [stripLit_sound ['t', 't'] s.data rest hsl, he]
      rfl

theorem wellFormedTmdb_matches (s : String) (h : WellFormedTmdb s) :
    ∃ v, sepIdMatch ['t', 'm', 'd', 'b'] s.data = some v := by
  obtain ⟨sep, d, suf, hsep, hd, hs, he⟩ := h
  exact ⟨String.mk d, by rw [he]; exact sepIdMatch_complete ['t', 'm', 'd', 'b'] sep d suf hsep hd hs⟩

theorem wellFormedTvdb_matches (s : String) (h : WellFormedTvdb s) :
    ∃ v, sepIdMatch ['t', 'v', 'd', 'b'] s.data = some v := by
  obtain ⟨sep, d, suf, hsep, hd, hs, he⟩ := h
  exact ⟨String.mk d, by rw [he]; exact sepIdMatch_complete ['t', 'v', 'd', 'b'] sep d suf hsep hd hs⟩

theorem wellFormedImdb_matches (s : String) (h : WellFormedImdb s) :
    ∃ v, ttIdMatch s.data = some v := by
  obtain ⟨d, suf, hd, hs, he⟩ := h
  exact ⟨String.mk d, by rw [he]; exact ttIdMatch_complete d suf hd hs⟩

theorem bareDigits_matches (s : String) (h : BareDigits s) :
    ∃ v, bareDigitsMatch s.data = some v := by
  obtain ⟨d, suf, hd, hs, he⟩ := h
  exact ⟨String.mk d, by rw [he]; exact bareDigitsMatch_complete d suf hd hs⟩

theorem tmdbMatch_none (s : String) (h : ¬ WellFormedTmdb s) :
    sepIdMatch ['t', 'm', 'd', 'b'] s.data = none := by
  rcases hm : sepIdMatch ['t', 'm', 'd', 'b'] s.data with _ | v
  · rfl
  · obtain ⟨sep, d, suf, hsep, hd, hs, he, _⟩ := sepIdMatch_sound _ _ _ hm
    exact absurd ⟨sep, d, suf, hsep, hd, hs, he⟩ h

theorem tvdbMatch_none (s : String) (h : ¬ WellFormedTvdb s) :
    sepIdMatch ['t', 'v', 'd', 'b'] s.data = none := by
  rcases hm : sepIdMatch ['t', 'v', 'd', 'b'] s.data with _ | v
  · rfl
  · obtain ⟨sep, d, suf, hsep, hd, hs, he, _⟩ := sepIdMatch_sound _ _ _ hm
    exact absurd ⟨sep, d, suf, hsep, hd, hs, he⟩ h

theorem imdbMatch_none (s : String) (h : ¬ WellFormedImdb s) :
    ttIdMatch s.data = none := by
  rcases hm : ttIdMatch s.data with _ | v
  · rfl
  · obtain ⟨d, suf, hd, hs, he, _⟩ := ttIdMatch_sound _ _ hm
    exact absurd ⟨d, suf, hd, hs, he⟩ h

/-- C6 (amended): every well-formed id of the five shapes parses to the matching
`{kind, value}` pair in `LogoService.parseExternalId` — the imdb value keeps the
`tt` prefix, the tmdb/tvdb values are the bare digits, the `:season:episode`
suffix is discarded, and the tmdb regex is tried first, then imdb, then tvdb
(first match wins).  `FanartTV2.getParsedId` additionally gates by content type:
tmdb ids parse only for `type = "movie"`, tvdb ids only for `type = "series"`
(null otherwise), imdb ids for every type. -/
theorem IdParsing.wellformed_ids_parse :
    ∀ (sep : Char) (d suf : List Char), (sep = '-' ∨ sep = ':') → DigitStr d → SuffixOk suf →
      LogoService.parseExternalId (String.mk ('t' :: 'm' :: 'd' :: 'b' :: sep :: (d ++ suf)))
          = some ⟨.tmdb, String.mk d⟩ ∧
      LogoService.parseExternalId (String.mk ('t' :: 't' :: (d ++ suf)))
          = some ⟨.imdb, String.mk ('t' :: 't' :: d)⟩ ∧
      LogoService.parseExternalId (String.mk ('t' :: 'v' :: 'd' :: 'b' :: sep :: (d ++ suf)))
          = some ⟨.tvdb, String.mk d⟩ ∧
      (∀ type : String,
        FanartTV2.getParsedId (String.mk ('t' :: 'm' :: 'd' :: 'b' :: sep :: (d ++ suf))) type
          = if type = "movie" then some ⟨.tmdb, String.mk d⟩ else none) ∧
      (∀ type : String,
        FanartTV2.getParsedId (String.mk ('t' :: 't' :: (d ++ suf))) type
          = some ⟨.imdb, String.mk ('t' :: 't' :: d)⟩) ∧
      (∀ type : String,
        FanartTV2.getParsedId (String.mk ('t' :: 'v' :: 'd' :: 'b' :: sep :: (d ++ suf))) type
          = if type = "series" then some ⟨.tvdb, String.mk d⟩ else none) := by
  intro sep d suf hsep hd hsuf
  have hmk : ∀ l : List Char, (String.mk l).data = l := fun l => rfl
  have htm : sepIdMatch ['t', 'm', 'd', 'b'] ('t' :: 'm' :: 'd' :: 'b' :: sep :: (d ++ suf))
      = some (String.mk d) := sepIdMatch_complete _ sep d suf hsep hd hsuf
  have htv : sepIdMatch ['t', 'v', 'd', 'b'] ('t' :: 'v' :: 'd' :: 'b' :: sep :: (d ++ suf))
      = some (String.mk d) := sepIdMatch_complete _ sep d suf hsep hd hsuf
  have htt : ttIdMatch ('t' :: 't' :: (d ++ suf)) = some (String.mk d) :=
    ttIdMatch_complete d suf hd hsuf
  have htm_tt : sepIdMatch ['t', 'm', 'd', 'b'] ('t' :: 't' :: (d ++ suf)) = none := rfl
  have htm_tv : sepIdMatch ['t', 'm', 'd', 'b'] ('t' :: 'v' :: 'd' :: 'b' :: sep :: (d ++ suf))
      = none := rfl
  have htt_tv : ttIdMatch ('t' :: 'v' :: 'd' :: 'b' :: sep :: (d ++ suf)) = none := rfl
  have hval : "tt" ++ String.mk d = String.mk ('t' :: 't' :: d) := rfl
  refine ⟨?_, ?_, ?_, ?_, ?_, ?_⟩
  · unfold LogoService.parseExternalId
    rw [hmk, htm]
  · unfold LogoService.parseExternalId
    rw [hmk, htm_tt, htt]
    rfl
  · unfold LogoService.parseExternalId
    rw [hmk, htm_tv, htt_tv, htv]
  · intro type
    unfold FanartTV2.getParsedId
    rw [hmk, htm]
  · intro type
    unfold FanartTV2.getParsedId
    rw [hmk, htm_tt, htt]
    rfl
  · intro type
    unfold FanartTV2.getParsedId
    rw [hmk, htm_tv, htt_tv, htv]

/-- C6 counterexample: `tmdb-123` is a well-formed tmdb id — `parseExternalId`
maps it to `{tmdb, "123"}` — yet `FanartTV2.getParsedId` applied to it with
content type `"series"` returns null instead of that pair, because part_001's
parser additionally requires `type === 'movie'` for tmdb ids. -/
theorem FanartTV2.getParsedId_type_gate :
    FanartTV2.getParsedId "tmdb-123" "series" = none ∧
    LogoService.parseExternalId "tmdb-123" = some ⟨.tmdb, "123"⟩ ∧
    FanartTV2.getParsedId "tmdb-123" "movie" = some ⟨.tmdb, "123"⟩ := by
  refine ⟨by decide, by decide, by decide⟩

/-- Witness for C6 (amended) at `sep = '-'`, digits `42`, empty suffix. -/
theorem IdParsing.wellformed_ids_parse_witness :
    ((('-' : Char) = '-' ∨ ('-' : Char) = ':') ∧ DigitStr ['4', '2'] ∧ SuffixOk []) ∧
    LogoService.parseExternalId
        (String.mk ('t' :: 'm' :: 'd' :: 'b' :: '-' :: (['4', '2'] ++ [])))
      = some ⟨.tmdb, String.mk ['4', '2']⟩ :=
  ⟨⟨Or.inl rfl, ⟨by simp, by decide⟩, Or.inl rfl⟩,
   (IdParsing.wellformed_ids_parse '-' ['4', '2'] [] (Or.inl rfl)
     ⟨by simp, by decide⟩ (Or.inl rfl)).1⟩

/-- C7 (amended): a string matching none of the three id shapes parses to null in
`LogoService.parseExternalId` and in `FanartTV2.getParsedId` (for every content
type); `FanartTV1.parseImdbId` (fanart.ts), whose regex makes the `tt` prefix
optional, returns null only when the string is additionally not a bare digit
string; all the parsers are total functions — parse failure is the `none` value,
never an exception. -/
theorem IdParsing.unmatched_ids_null :
    ∀ s : String, ¬ WellFormedTmdb s → ¬ WellFormedImdb s → ¬ WellFormedTvdb s →
      LogoService.parseExternalId s = none ∧
      (∀ type, FanartTV2.getParsedId s type = none) ∧
      (¬ BareDigits s → FanartTV1.parseImdbId s = none) := by
  intro s h1 h2 h3
  refine ⟨?_, ?_, ?_⟩
  · unfold LogoService.parseExternalId
    rw [tmdbMatch_none s h1, imdbMatch_none s h2, tvdbMatch_none s h3]
  · intro type
    unfold FanartTV2.getParsedId
    rw [tmdbMatch_none s h1, imdbMatch_none s h2, tvdbMatch_none s h3]
  · intro hbare
    rcases hp : FanartTV1.parseImdbId s with _ | v
    · rfl
    · rcases parseImdbId_sound s v hp with h | h
      · exact absurd h h2
      · exact absurd h hbare

/-- C7 counterexample: `"123"` matches none of the three id shapes (no `tt`,
`tmdb`, or `tvdb` prefix), yet fanart.ts's `parseImdbId` — whose regex
`/^(?:tt)?(\d+)(?::\d+:\d+)?$/` makes `tt` optional — parses it to `"tt123"`
instead of failing with null. -/
theorem FanartTV1.parseImdbId_bare_digits :
    ¬ WellFormedTmdb "123" ∧ ¬ WellFormedImdb "123" ∧ ¬ WellFormedTvdb "123" ∧
    FanartTV1.parseImdbId "123" = some "tt123" := by
  refine ⟨?_, ?_, ?_, by decide⟩
  · intro h
    obtain ⟨v, hv⟩ := wellFormedTmdb_matches "123" h
    rw [show sepIdMatch ['t', 'm', 'd', 'b'] "123".data = none from rfl] at hv
    exact absurd hv (by simp)
  · intro h
    obtain ⟨v, hv⟩ := wellFormedImdb_matches "123" h
    rw [show ttIdMatch "123".data = none from rfl] at hv
    exact absurd hv (by simp)
  · intro h
    obtain ⟨v, hv⟩ := wellFormedTvdb_matches "123" h
    rw [show sepIdMatch ['t', 'v', 'd', 'b'] "123".data = none from rfl] at hv
    exact absurd hv (by simp)

/-- Witness for C7 (amended) at the concrete string `"hello"`. -/
theorem IdParsing.unmatched_ids_null_witness :
    LogoService.parseExternalId "hello" = none ∧
    FanartTV2.getParsedId "hello" "movie" = none ∧
    FanartTV1.parseImdbId "hello" = none := by
  have h1 : ¬ WellFormedTmdb "hello" := by
    intro h
    obtain ⟨v, hv⟩ := wellFormedTmdb_matches "hello" h
    rw [show sepIdMatch ['t', 'm', 'd', 'b'] "hello".data = none from rfl] at hv
    exact absurd hv (by simp)
  have h2 : ¬ WellFormedImdb "hello" := by
    intro h
    obtain ⟨v, hv⟩ := wellFormedImdb_matches "hello" h
    rw [show ttIdMatch "hello".data = none from rfl] at hv
    exact absurd hv (by simp)
  have h3 : ¬ WellFormedTvdb "hello" := by
    intro h
    obtain ⟨v, hv⟩ := wellFormedTvdb_matches "hello" h
    rw [show sepIdMatch ['t', 'v', 'd', 'b'] "hello".data = none from rfl] at hv
    exact absurd hv (by simp)
  have h4 : ¬ BareDigits "hello" := by
    intro h
    obtain ⟨v, hv⟩ := bareDigits_matches "hello" h
    rw [show bareDigitsMatch "hello".data = none from rfl] at hv
    exact absurd hv (by simp)
  obtain ⟨ha, hb, hc⟩ := IdParsing.unmatched_ids_null "hello" h1 h2 h3
  exact ⟨ha, hb "movie", hc h4⟩

/-- C3 counterexample: RPDB returns the non-null URL `""`.  The claim then
requires Fanart.tv never to be invoked and `""` to be returned, but
`if (rpdbPosterUrl)` is a truthiness test, so the empty string falls through:
Fanart.tv IS invoked (flag `true`) and its URL is what the call returns. -/
theorem ArtworkProvider.getPosterUrl_empty_rpdb :
    (⟨some (.ok (some "")), some (.ok (some "https://fanart.example/p.jpg"))⟩ : APState).rpdb
        = some (.ok (some "")) ∧
    ArtworkProvider.getPosterUrl
        ⟨some (.ok (some "")), some (.ok (some "https://fanart.example/p.jpg"))⟩
      = (some "https://fanart.example/p.jpg", true) := by
  exact ⟨rfl, by decide⟩

/-- C3 (amended): `ArtworkProvider.getPosterUrl` tries RPDB first and Fanart.tv
second; a truthy (non-null, non-empty) RPDB URL is returned without invoking
Fanart.tv; when RPDB yields nothing (absent, null, empty string, or a thrown
exception) the configured Fanart.tv provider is attempted and its truthy URL is
returned; when neither yields a truthy URL the result is null. -/
theorem ArtworkProvider.getPosterUrl_fallback :
    ∀ s : APState,
      (∀ url, s.rpdb = some (.ok (some url)) → url ≠ "" →
        ArtworkProvider.getPosterUrl s = (some url, false)) ∧
      (rpdbNoResult s → ∀ out, s.fanart = some out →
        ArtworkProvider.getPosterUrl s =
          ((match out with
            | .ok u => jsUrlOrNull u
            | .error _ => none), true)) ∧
      (rpdbNoResult s → s.fanart = none →
        ArtworkProvider.getPosterUrl s = (none, false)) := by
  intro s
  refine ⟨?_, ?_, ?_⟩
  · intro url h hne
    simp [ArtworkProvider.getPosterUrl, h, jsUrlOrNull, hne]
  · intro hno out hf
    have hr : (match s.rpdb with
        | none => none
        | some (.error _) => none
        | some (.ok u) => jsUrlOrNull u) = (none : Option String) := by
      unfold rpdbNoResult at hno
      rcases hsr : s.rpdb with _ | e
      · rfl
      · rcases e with _ | u
        · rfl
        · rw [hsr] at hno
          exact hno
    unfold ArtworkProvider.getPosterUrl
    simp only [hr, hf]
    rcases out with _ | u
    · rfl
    · rcases hju : jsUrlOrNull u with _ | url <;> simp [hju]
  · intro hno hf
    have hr : (match s.rpdb with
        | none => none
        | some (.error _) => none
        | some (.ok u) => jsUrlOrNull u) = (none : Option String) := by
      unfold rpdbNoResult at hno
      rcases hsr : s.rpdb with _ | e
      · rfl
      · rcases e with _ | u
        · rfl
        · rw [hsr] at hno
          exact hno
    unfold ArtworkProvider.getPosterUrl
    simp only [hr, hf]

/-- Witness for C3 (amended): a truthy RPDB URL short-circuits. -/
theorem ArtworkProvider.getPosterUrl_fallback_witness :
    ((⟨some (.ok (some "https://rpdb.example/p.jpg")),
       some (.ok (some "https://fanart.example/q.jpg"))⟩ : APState).rpdb
        = some (.ok (some "https://rpdb.example/p.jpg")) ∧
     "https://rpdb.example/p.jpg" ≠ "") ∧
    ArtworkProvider.getPosterUrl
        ⟨some (.ok (some "https://rpdb.example/p.jpg")),
         some (.ok (some "https://fanart.example/q.jpg"))⟩
      = (some "https://rpdb.example/p.jpg", false) :=
  ⟨⟨rfl, by decide⟩,
   (ArtworkProvider.getPosterUrl_fallback
     ⟨some (.ok (some "https://rpdb.example/p.jpg")),
      some (.ok (some "https://fanart.example/q.jpg"))⟩).1
     "https://rpdb.example/p.jpg" rfl (by decide)⟩

theorem getFanartLogo_congr (env env' : LogoEnv) (h : env.fanartResp = env'.fanartResp)
    (ext : ExternalId) (type : MediaType) (lang : String) :
    LogoService.getFanartLogo env ext type lang = LogoService.getFanartLogo env' ext type lang := by
  unfold LogoService.getFanartLogo
  rw [h]

theorem convertToTmdbId_congr (env env' : LogoEnv) (h : env.tmdbFindResp = env'.tmdbFindResp)
    (ext : ExternalId) (type : MediaType) :
    LogoService.convertToTmdbId env ext type = LogoService.convertToTmdbId env' ext type := by
  unfold LogoService.convertToTmdbId
  rw [h]

theorem getTmdbLogo_congr (env env' : LogoEnv) (h1 : env.tmdbFindResp = env'.tmdbFindResp)
    (h2 : env.tmdbImagesResp = env'.tmdbImagesResp)
    (ext : ExternalId) (type : MediaType) (lang : String) :
    LogoService.getTmdbLogo env ext type lang = LogoService.getTmdbLogo env' ext type lang := by
  unfold LogoService.getTmdbLogo
  rw [convertToTmdbId_congr env env' h1 ext type, h2]

theorem getLogo_congr (env env' : LogoEnv) (cache : CacheStore) (id : String)
    (type : MediaType) (lang : String)
    (h1 : env.fanartApiKey = env'.fanartApiKey)
    (h2 : env.tmdbAccessToken = env'.tmdbAccessToken)
    (h3 : ∀ ext, LogoService.getFanartLogo env ext type lang
        = LogoService.getFanartLogo env' ext type lang)
    (h4 : ∀ ext, LogoService.getTmdbLogo env ext type lang
        = LogoService.getTmdbLogo env' ext type lang) :
    LogoService.getLogo env cache id type lang = LogoService.getLogo env' cache id type lang := by
  cases hg : cache.get (id ++ "-" ++ typeStr type ++ "-" ++ lang) with
  | some v => simp only [LogoService.getLogo, hg]
  | none =>
    cases hp : LogoService.parseExternalId id with
    | none => simp only [LogoService.getLogo, hg, hp]
    | some ext =>
      simp only [LogoService.getLogo, hg, hp]
      rw [h1, h2, h3 ext, h4 ext]

/-- The Fanart.tv probe of `getFanartLogo` treats a thrown exception exactly as
a failed (non-ok) response: null result, one request. -/
theorem getFanartLogo_error_eq (env : LogoEnv) (ext : ExternalId) (type : MediaType)
    (lang : String) :
    LogoService.getFanartLogo { env with fanartResp := .error () } ext type lang
      = LogoService.getFanartLogo { env with fanartResp := .ok ⟨false, none, none⟩ } ext type lang := by
  unfold LogoService.getFanartLogo
  by_cases hm : type = MediaType.movie ∧ ext.type = IdType.tmdb
  · simp [hm]
  · by_cases hs : (type = MediaType.series ∨ type = MediaType.tv) ∧ ext.type = IdType.tvdb
    · simp [hm, hs]
    · simp [hm, hs]

theorem getTmdbLogo_images_error_eq (env : LogoEnv) (ext : ExternalId) (type : MediaType)
    (lang : String) :
    LogoService.getTmdbLogo { env with tmdbImagesResp := .error () } ext type lang
      = LogoService.getTmdbLogo { env with tmdbImagesResp := .ok ⟨false, none⟩ } ext type lang := by
  simp only [LogoService.getTmdbLogo]
  rw [convertToTmdbId_congr { env with tmdbImagesResp := .error () }
    { env with tmdbImagesResp := .ok ⟨false, none⟩ } rfl ext type]
  generalize (if ext.type ≠ IdType.tmdb then
      LogoService.convertToTmdbId { env with tmdbImagesResp := Except.ok ⟨false, none⟩ } ext type
    else (some ext.value, 0)) = p
  rcases p with ⟨o, n⟩
  cases o with
  | none => rfl
  | some v => rfl

theorem getTmdbLogo_find_error_eq (env : LogoEnv) (ext : ExternalId) (type : MediaType)
    (lang : String) :
    LogoService.getTmdbLogo { env with tmdbFindResp := .error () } ext type lang
      = LogoService.getTmdbLogo { env with tmdbFindResp := .ok ⟨false, none, none⟩ } ext type lang := by
  simp only [LogoService.getTmdbLogo]
  rw [show LogoService.convertToTmdbId { env with tmdbFindResp := .error () } ext type
      = (none, 1) from rfl,
    show LogoService.convertToTmdbId { env with tmdbFindResp := .ok ⟨false, none, none⟩ } ext type
      = (none, 1) from rfl]

/-- C4: the public lookups `getLogo` and `getPosterUrl` are total — they always
produce a URL or null — and an exception thrown by any provider call is caught
at the orchestrator boundary and treated exactly like "no result from this
provider", so the fallback chain continues (stated as equality of the whole call
result between the throwing environment and the corresponding no-result one). -/
theorem Orchestrators.provider_errors_swallowed :
    ∀ (env : LogoEnv) (cache : CacheStore) (id : String) (type : MediaType) (language : String)
      (s : APState),
      LogoService.getLogo { env with fanartResp := .error () } cache id type language
        = LogoService.getLogo { env with fanartResp := .ok ⟨false, none, none⟩ }
            cache id type language ∧
      LogoService.getLogo { env with tmdbImagesResp := .error () } cache id type language
        = LogoService.getLogo { env with tmdbImagesResp := .ok ⟨false, none⟩ }
            cache id type language ∧
      LogoService.getLogo { env with tmdbFindResp := .error () } cache id type language
        = LogoService.getLogo { env with tmdbFindResp := .ok ⟨false, none, none⟩ }
            cache id type language ∧
      ((LogoService.getLogo env cache id type language).1 = none ∨
        ∃ url, (LogoService.getLogo env cache id type language).1 = some url) ∧
      ArtworkProvider.getPosterUrl { s with rpdb := some (.error ()) }
        = ArtworkProvider.getPosterUrl { s with rpdb := some (.ok none) } ∧
      ArtworkProvider.getPosterUrl { s with fanart := some (.error ()) }
        = ArtworkProvider.getPosterUrl { s with fanart := some (.ok none) } ∧
      ((ArtworkProvider.getPosterUrl s).1 = none ∨
        ∃ url, (ArtworkProvider.getPosterUrl s).1 = some url) := by
  intro env cache id type language s
  refine ⟨?_, ?_, ?_, ?_, ?_, ?_, ?_⟩
  · exact getLogo_congr _ _ cache id type language rfl rfl
      (fun ext => getFanartLogo_error_eq env ext type language)
      (fun ext => getTmdbLogo_congr _ _ rfl rfl ext type language)
  · exact getLogo_congr _ _ cache id type language rfl rfl
      (fun ext => getFanartLogo_congr _ _ rfl ext type language)
      (fun ext => getTmdbLogo_images_error_eq env ext type language)
  · exact getLogo_congr _ _ cache id type language rfl rfl
      (fun ext => getFanartLogo_congr _ _ rfl ext type language)
      (fun ext => getTmdbLogo_find_error_eq env ext type language)
  · cases h : (LogoService.getLogo env cache id type language).1 with
    | none => exact Or.inl rfl
    | some u => exact Or.inr ⟨u, rfl⟩
  · rfl
  · rfl
  · cases h : (ArtworkProvider.getPosterUrl s).1 with
    | none => exact Or.inl rfl
    | some u => exact Or.inr ⟨u, rfl⟩

theorem CacheStore.getEntry_set (c : CacheStore) (k : String) (v : Option String) (ttl : Nat) :
    (c.set k v ttl).getEntry k = some (v, ttl) := by
  simp [CacheStore.getEntry, CacheStore.set, List.find?]

/-- C5: `getLogo` is cache-aside under the key `` `${id}-${type}-${language}` ``:
a present entry — including a cached null — is returned as-is with zero network
requests (and without reaching the id-parsing or provider code, which sit after
the early return); on a miss, every outcome (found URL, null for an unparseable
id, null when no provider yields a logo) is written under that key with
`LOGO_CACHE_TTL`; consequently a repeated call with the same `(id, type,
language)` — under any provider environment — returns the first call's value
with zero network requests and an unchanged cache. -/
theorem LogoService.getLogo_cache_spec :
    ∀ (env env2 : LogoEnv) (cache : CacheStore) (id : String) (type : MediaType)
      (language : String),
      (∀ v, cache.get (id ++ "-" ++ typeStr type ++ "-" ++ language) = some v →
        LogoService.getLogo env cache id type language = (v, cache, 0)) ∧
      (cache.get (id ++ "-" ++ typeStr type ++ "-" ++ language) = none →
        (LogoService.getLogo env cache id type language).2.1.getEntry
            (id ++ "-" ++ typeStr type ++ "-" ++ language)
          = some ((LogoService.getLogo env cache id type language).1, LOGO_CACHE_TTL)) ∧
      (cache.get (id ++ "-" ++ typeStr type ++ "-" ++ language) = none →
        LogoService.getLogo env2 (LogoService.getLogo env cache id type language).2.1
            id type language
          = ((LogoService.getLogo env cache id type language).1,
             (LogoService.getLogo env cache id type language).2.1, 0)) := by
  intro env env2 cache id type language
  have hhit : ∀ (env' : LogoEnv) (c : CacheStore) v,
      c.get (id ++ "-" ++ typeStr type ++ "-" ++ language) = some v →
      LogoService.getLogo env' c id type language = (v, c, 0) := by
    intro env' c v h
    simp only [LogoService.getLogo, h]
  have hmiss : cache.get (id ++ "-" ++ typeStr type ++ "-" ++ language) = none →
      (LogoService.getLogo env cache id type language).2.1.getEntry
          (id ++ "-" ++ typeStr type ++ "-" ++ language)
        = some ((LogoService.getLogo env cache id type language).1, LOGO_CACHE_TTL) := by
    intro h
    cases hp : LogoService.parseExternalId id with
    | none =>
      simp only [LogoService.getLogo, h, hp]
      exact CacheStore.getEntry_set cache _ none LOGO_CACHE_TTL
    | some ext =>
      simp only [LogoService.getLogo, h, hp]
      repeat' split
      all_goals exact CacheStore.getEntry_set cache _ _ LOGO_CACHE_TTL
  refine ⟨fun v h => hhit env cache v h, hmiss, ?_⟩
  intro h
  have hget : (LogoService.getLogo env cache id type language).2.1.get
      (id ++ "-" ++ typeStr type ++ "-" ++ language)
      = some (LogoService.getLogo env cache id type language).1 := by
    unfold CacheStore.get
    rw [hmiss h]
    rfl
  exact hhit env2 _ _ hget

/-- Witness for C5 at an empty cache and a concrete lookup. -/
theorem LogoService.getLogo_cache_spec_witness :
    CacheStore.get ⟨[]⟩ ("tt1" ++ "-" ++ typeStr .movie ++ "-" ++ "en") = none ∧
    (LogoService.getLogo
        ⟨false, false, .ok ⟨false, none, none⟩, .ok ⟨false, none, none⟩, .ok ⟨false, none⟩⟩
        ⟨[]⟩ "tt1" .movie "en").2.1.getEntry ("tt1" ++ "-" ++ typeStr .movie ++ "-" ++ "en")
      = some ((LogoService.getLogo
          ⟨false, false, .ok ⟨false, none, none⟩, .ok ⟨false, none, none⟩, .ok ⟨false, none⟩⟩
          ⟨[]⟩ "tt1" .movie "en").1, LOGO_CACHE_TTL) :=
  ⟨rfl,
   (LogoService.getLogo_cache_spec
      ⟨false, false, .ok ⟨false, none, none⟩, .ok ⟨false, none, none⟩, .ok ⟨false, none⟩⟩
      ⟨false, false, .ok ⟨false, none, none⟩, .ok ⟨false, none, none⟩, .ok ⟨false, none⟩⟩
      ⟨[]⟩ "tt1" .movie "en").2.1 rfl⟩

/-- C8 counterexample: fanart.ts's `FanartTV.getPosterUrl` performs a network
request for the combination (movie, imdb id) — `tt123` is an imdb id, not a tmdb
id — contradicting "a request is built only for movie+tmdb or series/tv+tvdb;
every other combination returns null without any network request". -/
theorem FanartTV1.getPosterUrl_imdb_request :
    (FanartTV1.getPosterUrl (.ok ⟨true, none, none⟩) "movie" "tt123").2 = 1 ∧
    FanartTV1.parseImdbId "tt123" = some "tt123" ∧
    LogoService.parseExternalId "tt123" = some ⟨.imdb, "tt123"⟩ := by
  exact ⟨by decide, by decide, by decide⟩

/-- C8 (amended): `LogoService.getFanartLogo` builds a Fanart.tv request only for
movie+tmdb or series/tv+tvdb, returning null with zero network requests for
every other combination; part_001's `FanartTV.getPosterUrl` (which only builds
the endpoint URL, performing no request itself) yields a non-null endpoint only
for movie+tmdb or series+tvdb; fanart.ts's `FanartTV.getPosterUrl`, by contrast,
keys both movie and series requests off an IMDb id — it skips the network (with
a null result) only for other content types or unparseable ids. -/
theorem Fanart.request_combos :
    (∀ (env : LogoEnv) (ext : ExternalId) (type : MediaType) (lang : String),
      ¬ ((type = .movie ∧ ext.type = .tmdb) ∨
         ((type = .series ∨ type = .tv) ∧ ext.type = .tvdb)) →
      LogoService.getFanartLogo env ext type lang = (none, 0)) ∧
    (∀ (apiKey type id : String),
      (FanartTV2.getPosterUrl apiKey type id).isSome = true →
      (type = "movie" ∧ ∃ v, FanartTV2.getParsedId id type = some ⟨.tmdb, v⟩) ∨
      (type = "series" ∧ ∃ v, FanartTV2.getParsedId id type = some ⟨.tvdb, v⟩)) ∧
    (∀ (resp : Except Unit FanartPosterResp) (type id : String),
      (((type ≠ "movie" ∧ type ≠ "series") ∨ FanartTV1.parseImdbId id = none) →
        FanartTV1.getPosterUrl resp type id = (none, 0)) ∧
      ((FanartTV1.getPosterUrl resp type id).2 ≠ 0 →
        (type = "movie" ∨ type = "series") ∧ (FanartTV1.parseImdbId id).isSome = true)) := by
  refine ⟨?_, ?_, ?_⟩
  · intro env ext type lang h
    rw [not_or] at h
    unfold LogoService.getFanartLogo
    simp only [if_neg h.1, if_neg h.2]
  · intro apiKey type id h
    unfold FanartTV2.getPosterUrl at h
    rcases hp : FanartTV2.getParsedId id type with _ | ⟨pt, pv⟩
    · try rw [hp] at h
      simp at h
    · try rw [hp] at h
      by_cases h1 : type = "movie" ∧ pt = IdType.tmdb
      · rcases h1 with ⟨hm, rfl⟩
        exact Or.inl ⟨hm, pv, rfl⟩
      · by_cases h2 : type = "series" ∧ pt = IdType.tvdb
        · rcases h2 with ⟨hs, rfl⟩
          exact Or.inr ⟨hs, pv, rfl⟩
        · exfalso
          replace h := show (if type = "movie" ∧ pt = IdType.tmdb then
              some ("https://webservice.fanart.tv/v3/movies/" ++ pv ++ "?api_key=" ++ apiKey)
            else if type = "series" ∧ pt = IdType.tvdb then
              some ("https://webservice.fanart.tv/v3/tv/" ++ pv ++ "?api_key=" ++ apiKey)
            else none).isSome = true from h
          rw [if_neg h1, if_neg h2] at h
          simp at h
  · intro resp type id
    constructor
    · intro h
      unfold FanartTV1.getPosterUrl
      cases hp : FanartTV1.parseImdbId id with
      | none => rfl
      | some v =>
        rcases h with ⟨hm, hs⟩ | hpid
        · rw [if_neg (by simp [hm, hs])]
        · rw [hpid] at hp; exact absurd hp (by simp)
    · intro h
      unfold FanartTV1.getPosterUrl at h
      cases hp : FanartTV1.parseImdbId id with
      | none => rw [hp] at h; exact absurd rfl h
      | some v =>
        try rw [hp] at h
        by_cases ht : type = "movie" ∨ type = "series"
        · exact ⟨ht, by simp [hp]⟩
        · rw [if_neg ht] at h
          exact absurd rfl h

/-- Witness for C8 (amended) at the unsupported combination (movie, imdb id). -/
theorem Fanart.request_combos_witness :
    (¬ ((MediaType.movie = MediaType.movie ∧
          (⟨.imdb, "tt1"⟩ : ExternalId).type = IdType.tmdb) ∨
        ((MediaType.movie = MediaType.series ∨ MediaType.movie = MediaType.tv) ∧
          (⟨.imdb, "tt1"⟩ : ExternalId).type = IdType.tvdb))) ∧
    LogoService.getFanartLogo
        ⟨true, true, .ok ⟨true, none, none⟩, .ok ⟨true, none, none⟩, .ok ⟨true, none⟩⟩
        ⟨.imdb, "tt1"⟩ .movie "en" = (none, 0) :=
  ⟨by decide,
   Fanart.request_combos.1
     ⟨true, true, .ok ⟨true, none, none⟩, .ok ⟨true, none, none⟩, .ok ⟨true, none⟩⟩
     ⟨.imdb, "tt1"⟩ .movie "en" (by decide)⟩

/-- C9 counterexample (part_001's `validateApiKey`): a 500 response is not 2xx,
so the claim requires `false` with nothing written to the cache — but the code
treats every non-401 status as valid, returns `true` and caches it; moreover a
cached `false` is not returned from the cache (`if (cached)` is falsy), so the
next call re-hits the network (one request) and returns `true` on a 200. -/
theorem FanartTV2.validateApiKey_inconsistent :
    (FanartTV2.validateApiKey (.ok ⟨500⟩) 3600 ⟨[]⟩ "k").1 = true ∧
    (FanartTV2.validateApiKey (.ok ⟨500⟩) 3600 ⟨[]⟩ "k").2.1.get "k" = some true ∧
    (FanartTV2.validateApiKey (.ok ⟨200⟩) 3600 ⟨[("k", false, 3600)]⟩ "k").2.2 = 1 ∧
    (FanartTV2.validateApiKey (.ok ⟨200⟩) 3600 ⟨[("k", false, 3600)]⟩ "k").1 = true := by
  exact ⟨by decide, by decide, by decide, by decide⟩

/-- C9 (amended): fanart.ts's `validateApiKey` behaves as the claim states — a
cached boolean (true or false) is returned with zero network requests; on a
cache miss a 2xx response caches and returns true, a 401 caches and returns
false, any other status or a thrown error returns false without writing to the
cache.  part_001's variant instead treats every status other than 401 as valid
and caches that boolean (returning false uncached only on a thrown error), and
only a cached `true` short-circuits — a cached `false` triggers revalidation. -/
theorem FanartTV.validateApiKey_spec :
    ∀ (rpdbTtl : Nat) (cache : KeyCache) (key : String) (r : HttpResp),
      (∀ b, cache.get key = some b →
        FanartTV1.validateApiKey (.ok r) rpdbTtl cache key = (b, cache, 0) ∧
        FanartTV1.validateApiKey (.error ()) rpdbTtl cache key = (b, cache, 0)) ∧
      (cache.get key = none →
        (200 ≤ r.status → r.status ≤ 299 →
          FanartTV1.validateApiKey (.ok r) rpdbTtl cache key
            = (true, cache.set key true rpdbTtl, 1)) ∧
        (r.status = 401 →
          FanartTV1.validateApiKey (.ok r) rpdbTtl cache key
            = (false, cache.set key false rpdbTtl, 1)) ∧
        (¬ (200 ≤ r.status ∧ r.status ≤ 299) → r.status ≠ 401 →
          FanartTV1.validateApiKey (.ok r) rpdbTtl cache key = (false, cache, 1)) ∧
        FanartTV1.validateApiKey (.error ()) rpdbTtl cache key = (false, cache, 1)) ∧
      (cache.get key = some true →
        FanartTV2.validateApiKey (.ok r) rpdbTtl cache key = (true, cache, 0)) ∧
      (cache.get key ≠ some true →
        FanartTV2.validateApiKey (.ok r) rpdbTtl cache key
          = ((if r.status = 401 then false else true),
             cache.set key (if r.status = 401 then false else true) rpdbTtl, 1) ∧
        FanartTV2.validateApiKey (.error ()) rpdbTtl cache key = (false, cache, 1)) := by
  intro rpdbTtl cache key r
  refine ⟨?_, ?_, ?_, ?_⟩
  · intro b h
    constructor <;> simp [FanartTV1.validateApiKey, h]
  · intro h
    refine ⟨?_, ?_, ?_, ?_⟩
    · intro h1 h2
      have hok : r.ok = true := by simp [HttpResp.ok, h1, h2]
      simp [FanartTV1.validateApiKey, h, hok]
    · intro h401
      have hok : r.ok = false := by
        simp [HttpResp.ok, h401]
      simp [FanartTV1.validateApiKey, h, hok, h401]
    · intro hnot2xx h401
      have hok : r.ok = false := by
        simp only [HttpResp.ok, decide_eq_false_iff_not]
        exact hnot2xx
      simp [FanartTV1.validateApiKey, h, hok, h401]
    · simp [FanartTV1.validateApiKey, h]
  · intro h
    simp [FanartTV2.validateApiKey, h]
  · intro h
    unfold FanartTV2.validateApiKey
    rcases hg : cache.get key with _ | b
    · constructor <;> rfl
    · cases b with
      | true => exact absurd hg h
      | false => constructor <;> rfl

/-- Witness for C9 (amended): empty cache, 200 response caches and returns true. -/
theorem FanartTV.validateApiKey_spec_witness :
    (KeyCache.get ⟨[]⟩ "k" = none ∧ 200 ≤ (200 : Nat) ∧ (200 : Nat) ≤ 299) ∧
    FanartTV1.validateApiKey (.ok ⟨200⟩) 3600 ⟨[]⟩ "k"
      = (true, KeyCache.set ⟨[]⟩ "k" true 3600, 1) :=
  ⟨⟨rfl, by decide, by decide⟩,
   ((FanartTV.validateApiKey_spec 3600 ⟨[]⟩ "k" ⟨200⟩).2.1 rfl).1 (by decide) (by decide)⟩
